import Mathlib

set_option linter.unusedVariables false

namespace SimpleJack

/-- A planar point with an identity, as in `types.ts` (`Point`).  Coordinates
are modelled as exact rationals. -/
structure Pt where
  id : Int
  x : ℚ
  y : ℚ
deriving DecidableEq, Repr

instance : Inhabited Pt := ⟨⟨0, 0, 0⟩⟩

/-- Module-level epsilon `1e-9` of `lib/geometry.ts` (`EPSILON`). -/
def EPSILON : ℚ := 1 / 1000000000

/-- Area-scale epsilon `1e-6` used inline by the statistics and cut engines. -/
def AREA_EPS : ℚ := 1 / 1000000

/-- `distance` from `lib/geometry.ts`: Euclidean distance (the square root is
taken in `ℝ`). -/
noncomputable def distance (p1 p2 : Pt) : ℝ :=
  Real.sqrt ((((p2.x - p1.x) ^ 2 + (p2.y - p1.y) ^ 2 : ℚ) : ℝ))

/-- One addend of the shoelace loop in `polygonArea`: the loop body performs
`area += p_i.x * p_j.y; area -= p_j.x * p_i.y` for `j` the cyclic predecessor
of `i`.  `adjShoelace` sums these addends for `i ≥ 1` (where `j = i - 1`). -/
def adjShoelace : List Pt → ℚ
  | a :: b :: rest => (b.x * a.y - a.x * b.y) + adjShoelace (b :: rest)
  | _ => 0

/-- The full signed sum accumulated by `polygonArea`'s loop: the `i = 0`
iteration pairs the first point with the last (`j` starts at `n - 1`). -/
def shoelaceSum (l : List Pt) : ℚ :=
  match l.head?, l.getLast? with
  | some a, some z => (a.x * z.y - z.x * a.y) + adjShoelace l
  | _, _ => 0

/-- `polygonArea` from `lib/geometry.ts`: shoelace formula, absolute value of
half the signed sum; returns `0` for fewer than 3 points. -/
def polygonArea (polygon : List Pt) : ℚ :=
  if polygon.length < 3 then 0 else |shoelaceSum polygon / 2|

/-- `polygonPerimeter` from `lib/geometry.ts`: sum of consecutive edge
lengths, closing the loop with the `%` index. -/
noncomputable def polygonPerimeter (polygon : List Pt) : ℝ :=
  (List.range polygon.length).foldl
    (fun acc i =>
      acc + distance (polygon.getD i default)
        (polygon.getD ((i + 1) % polygon.length) default)) 0

/-- `onSegment` from `lib/geometry.ts`: bounding-box membership of `q` on the
segment `p`–`r` (used only for collinear configurations). -/
def onSegment (p q r : Pt) : Bool :=
  decide (q.x ≤ max p.x r.x ∧ q.x ≥ min p.x r.x ∧
          q.y ≤ max p.y r.y ∧ q.y ≥ min p.y r.y)

/-- `orientation` from `lib/geometry.ts`: `0` collinear (within `EPSILON`),
`1` clockwise, `2` counterclockwise. -/
def orientation (p q r : Pt) : ℕ :=
  let val := (q.y - p.y) * (r.x - q.x) - (q.x - p.x) * (r.y - q.y)
  if |val| < EPSILON then 0 else if val > 0 then 1 else 2

/-- `segmentsIntersect` from `lib/geometry.ts`: orientation-based segment
intersection test with the four collinear special cases. -/
def segmentsIntersect (p1 q1 p2 q2 : Pt) : Bool :=
  let o1 := orientation p1 q1 p2
  let o2 := orientation p1 q1 q2
  let o3 := orientation p2 q2 p1
  let o4 := orientation p2 q2 q1
  if o1 ≠ o2 ∧ o3 ≠ o4 then true
  else if o1 = 0 ∧ onSegment p1 p2 q1 then true
  else if o2 = 0 ∧ onSegment p1 q2 q1 then true
  else if o3 = 0 ∧ onSegment p2 p1 q2 then true
  else if o4 = 0 ∧ onSegment p2 q1 q2 then true
  else false

/-- The on-edge part of `pointInPolygon`: some edge `p1`–`p2` has
`|d(p1, pt) + d(pt, p2) - d(p1, p2)| < EPSILON`. -/
def onAnyEdge (point : Pt) (polygon : List Pt) : Prop :=
  ∃ i ∈ Finset.range polygon.length,
    |distance (polygon.getD i default) point +
      distance point (polygon.getD ((i + 1) % polygon.length) default) -
      distance (polygon.getD i default)
        (polygon.getD ((i + 1) % polygon.length) default)| < ((EPSILON : ℚ) : ℝ)

/-- The crossing condition of the ray-casting loop in `pointInPolygon`.  The
division is only reached when `p_i.y` and `p_j.y` straddle `point.y`. -/
def rayCrossing (point pi pj : Pt) : Bool :=
  decide (((pi.y > point.y) ≠ (pj.y > point.y)) ∧
    point.x < (pj.x - pi.x) * (point.y - pi.y) / (pj.y - pi.y) + pi.x)

/-- The even-odd ray-casting loop of `pointInPolygon` (`j` is the cyclic
predecessor of `i`). -/
def rayCastInside (point : Pt) (polygon : List Pt) : Bool :=
  (List.range polygon.length).foldl
    (fun inside i =>
      let pi := polygon.getD i default
      let pj := polygon.getD ((i + polygon.length - 1) % polygon.length) default
      if rayCrossing point pi pj then !inside else inside) false

open Classical in
/-- `pointInPolygon` from `lib/geometry.ts`: boundary-inclusive containment;
`false` for fewer than 3 points. -/
noncomputable def pointInPolygon (point : Pt) (polygon : List Pt) : Bool :=
  if polygon.length < 3 then false
  else if onAnyEdge point polygon then true
  else rayCastInside point polygon

/-- An axis-aligned rectangle `{x, y, width, height}`. -/
structure RectQ where
  x : ℚ
  y : ℚ
  width : ℚ
  height : ℚ
deriving DecidableEq, Repr

/-- The four sentinel-id corner points built by `polygonIntersectsRectangle`
(and by the tile code in `App.tsx`). -/
def rectCorners (rect : RectQ) : List Pt :=
  [⟨-1, rect.x, rect.y⟩, ⟨-2, rect.x + rect.width, rect.y⟩,
   ⟨-3, rect.x + rect.width, rect.y + rect.height⟩,
   ⟨-4, rect.x, rect.y + rect.height⟩]

/-- `polygonIntersectsRectangle` from `lib/geometry.ts`: any polygon vertex in
the rectangle, any rectangle corner in the polygon, or any edge crossing. -/
noncomputable def polygonIntersectsRectangle (polygon : List Pt) (rect : RectQ) : Bool :=
  if polygon.any (fun p => decide (p.x ≥ rect.x ∧ p.x ≤ rect.x + rect.width ∧
      p.y ≥ rect.y ∧ p.y ≤ rect.y + rect.height)) then true
  else if (rectCorners rect).any (fun p => pointInPolygon p polygon) then true
  else
    (List.range polygon.length).any fun i =>
      let p1 := polygon.getD i default
      let q1 := polygon.getD ((i + 1) % polygon.length) default
      (List.range (rectCorners rect).length).any fun j =>
        let p2 := (rectCorners rect).getD j default
        let q2 := (rectCorners rect).getD ((j + 1) % (rectCorners rect).length) default
        segmentsIntersect p1 q1 p2 q2

/-- `getLineIntersection` from `lib/geometry.ts`: intersection of the two
infinite lines; `none` when the determinant's magnitude is below `1e-9`. -/
def getLineIntersection (p1 p2 p3 p4 : Pt) : Option (ℚ × ℚ) :=
  let d := (p1.x - p2.x) * (p3.y - p4.y) - (p1.y - p2.y) * (p3.x - p4.x)
  if |d| < EPSILON then none
  else
    let t := ((p1.x - p3.x) * (p3.y - p4.y) - (p1.y - p3.y) * (p3.x - p4.x)) / d
    some (p1.x + t * (p2.x - p1.x), p1.y + t * (p2.y - p1.y))

/-- `rectanglesIntersect` from `lib/geometry.ts`: strict AABB overlap. -/
def rectanglesIntersect (r1 r2 : RectQ) : Bool :=
  decide (r1.x < r2.x + r2.width ∧ r1.x + r1.width > r2.x ∧
          r1.y < r2.y + r2.height ∧ r1.y + r1.height > r2.y)

/-- The inside test of the Sutherland–Hodgman step (`crossProduct` in
`clipPolygonByPolygon`): cross product of the clip edge vector with the vector
from the edge start to the vertex. -/
def crossProduct (p2 p1 p : Pt) : ℚ :=
  (p2.x - p1.x) * (p.y - p1.y) - (p2.y - p1.y) * (p.x - p1.x)

/-- Body of one Sutherland–Hodgman pass: walks the subject vertices with the
running previous vertex `S`, pushing kept vertices and edge intersections. -/
def shPassGo (c1 c2 : Pt) : Pt → List Pt → List Pt
  | _, [] => []
  | S, E :: es =>
    let sInside := crossProduct c2 c1 S ≥ 0
    let eInside := crossProduct c2 c1 E ≥ 0
    let pushes :=
      if sInside ∧ eInside then [E]
      else if sInside ∧ ¬eInside then
        match getLineIntersection S E c1 c2 with
        | some q => [⟨-1, q.1, q.2⟩]
        | none => []
      else if ¬sInside ∧ eInside then
        (match getLineIntersection S E c1 c2 with
         | some q => [⟨-1, q.1, q.2⟩]
         | none => []) ++ [E]
      else []
    pushes ++ shPassGo c1 c2 E es

/-- One full pass of `clipPolygonByPolygon` against the clip edge `c1 → c2`
(`S` starts as the last subject vertex). -/
def shPass (c1 c2 : Pt) (input : List Pt) : List Pt :=
  match input.getLast? with
  | some S => shPassGo c1 c2 S input
  | none => []

/-- The cyclic edge list `(p_i, p_{(i+1) % n})` of a polygon. -/
def polygonEdges (poly : List Pt) : List (Pt × Pt) :=
  (List.range poly.length).map fun i =>
    (poly.getD i default, poly.getD ((i + 1) % poly.length) default)

/-- `clipPolygonByPolygon` from `lib/geometry.ts`: Sutherland–Hodgman clipping
of the subject against each clip edge in turn; an empty running list
short-circuits the remaining edges (the `break`). -/
def clipPolygonByPolygon (subjectPolygon clipPolygon : List Pt) : List Pt :=
  (polygonEdges clipPolygon).foldl
    (fun out e => if out.isEmpty then out else shPass e.1 e.2 out) subjectPolygon

/-- The fixed global color palette `TILE_COLORS` from `types.ts`. -/
def TILE_COLORS : List String :=
  ["#ef4444", "#f97316", "#eab308", "#84cc16", "#22c55e",
   "#06b6d4", "#3b82f6", "#8b5cf6", "#ec4899", "#78716c"]

/-- `Tile` from `types.ts`. -/
structure Tile where
  id : Int
  x : ℚ
  y : ℚ
  width : ℚ
  height : ℚ
  color : String
  number : Option String
deriving DecidableEq, Repr

/-- `TileDimensions` from `types.ts`. -/
structure TileDimensions where
  width : ℚ
  height : ℚ
deriving DecidableEq, Repr

/-- `Wall` from `types.ts`: a pair of point ids. -/
structure Wall where
  id : Int
  p1Id : Int
  p2Id : Int
deriving DecidableEq, Repr

/-- `CalculationResult` from `types.ts`.  The per-color record keeps its JS
insertion order as an association list. -/
structure CalculationResult where
  tileCount : ℚ
  colorCount : ℕ
  tileCountsByColor : List (String × ℚ)
  total : ℚ
  polygonArea : ℚ
  perimeter : ℝ

/-- `Area` from `types.ts`. -/
structure Area where
  id : Int
  name : String
  points : List Pt
  walls : List Wall
  color : String
  isClosed : Bool
  calculationResult : Option CalculationResult
  isVisible : Bool

/-- `CutTilePiece` from `types.ts`.  `cutSegments` is an optional property:
`none` models its absence. -/
structure CutTilePiece where
  id : String
  originalTile : Tile
  polygons : List (List Pt)
  cutSegments : Option (List (List Pt))
  x : ℚ
  y : ℚ
  isOffcut : Bool
  wastePercentage : ℚ
deriving DecidableEq, Repr

/-- `TILE_COLORS.indexOf(color)`: palette index or `-1`. -/
def colorIndexOf (c : String) : Int :=
  match TILE_COLORS.indexOf? c with
  | some i => (i : Int)
  | none => -1

/-- Append an element to the group of key `c`, creating the key at the end on
first occurrence (JS string-keyed objects and `Map`s keep insertion order). -/
def groupAdd {α : Type} (m : List (String × List α)) (c : String) (t : α) :
    List (String × List α) :=
  match m with
  | [] => [(c, [t])]
  | (k, l) :: rest =>
      if k = c then (k, l ++ [t]) :: rest else (k, l) :: groupAdd rest c t

/-- The `tilesByColor` record of `renumberTilesByColor`: numbered tiles grouped
by color (tiles with `number === null` are skipped). -/
def tilesByColor (tiles : List Tile) : List (String × List Tile) :=
  tiles.foldl (fun m t => if t.number = none then m else groupAdd m t.color t) []

/-- The sort comparator `a.y - b.y || a.x - b.x` of `renumberTilesByColor` as a
stability-preserving `le` predicate. -/
def tileLe (a b : Tile) : Bool := decide (a.y < b.y ∨ (a.y = b.y ∧ a.x ≤ b.x))

/-- One color group of `renumberTilesByColor`, sorted by position and assigned
`"<paletteIndex>-<ordinal>"` numbers. -/
def renumberGroup (color : String) (l : List Tile) : List Tile :=
  let colorPfx := colorIndexOf color
  ((l.mergeSort tileLe).enum).map fun p =>
    { p.2 with number := some (toString colorPfx ++ "-" ++ toString (p.1 + 1)) }

/-- `allRenumberedTiles`: the renumbered color groups, concatenated in group
key order. -/
def allRenumberedTiles (tiles : List Tile) : List Tile :=
  (tilesByColor tiles).foldl (fun acc g => acc ++ renumberGroup g.1 g.2) []

/-- `new Map(entries).get(id)`: with duplicate keys the last entry wins. -/
def mapGetTile (l : List Tile) (id : Int) : Option Tile :=
  l.foldl (fun acc r => if r.id = id then some r else acc) none

/-- `renumberTilesByColor` from `App.tsx`: renumber each color group and map
the results back over the original order (unnumbered tiles stay unchanged). -/
def renumberTilesByColor (tiles : List Tile) : List Tile :=
  tiles.map fun t => (mapGetTile (allRenumberedTiles tiles) t.id).getD t

/-- `isPolygonClockwise` from `App.tsx`: positive `Σ (x2 - x1) * (y2 + y1)`. -/
def isPolygonClockwise (polygon : List Pt) : Bool :=
  decide (0 < (List.range polygon.length).foldl
    (fun sum i =>
      let p1 := polygon.getD i default
      let p2 := polygon.getD ((i + 1) % polygon.length) default
      sum + (p2.x - p1.x) * (p2.y + p1.y)) 0)

/-- `arePointsCollinear` from `App.tsx` (callers use the default `1e-6`). -/
def arePointsCollinear (p1 p2 p3 : Pt) (epsilon : ℚ) : Bool :=
  decide (|p1.x * (p2.y - p3.y) + p2.x * (p3.y - p1.y) + p3.x * (p1.y - p2.y)| < epsilon)

/-- `isPointOnSegment` from `App.tsx`. -/
def isPointOnSegment (p a b : Pt) (epsilon : ℚ) : Bool :=
  arePointsCollinear a b p epsilon &&
    decide (min a.x b.x - epsilon ≤ p.x ∧ p.x ≤ max a.x b.x + epsilon ∧
            min a.y b.y - epsilon ≤ p.y ∧ p.y ≤ max a.y b.y + epsilon)

/-- The four boundary edges (top, right, bottom, left) of a tile used by
`isSegmentOnTileBoundary`. -/
def tileEdges (tile : Tile) : List (Pt × Pt) :=
  [(⟨-1, tile.x, tile.y⟩, ⟨-1, tile.x + tile.width, tile.y⟩),
   (⟨-1, tile.x + tile.width, tile.y⟩, ⟨-1, tile.x + tile.width, tile.y + tile.height⟩),
   (⟨-1, tile.x + tile.width, tile.y + tile.height⟩, ⟨-1, tile.x, tile.y + tile.height⟩),
   (⟨-1, tile.x, tile.y + tile.height⟩, ⟨-1, tile.x, tile.y⟩)]

/-- `isSegmentOnTileBoundary` from `App.tsx`: both endpoints lie on one and the
same tile boundary edge. -/
def isSegmentOnTileBoundary (p1 p2 : Pt) (tile : Tile) : Bool :=
  (tileEdges tile).any fun e =>
    isPointOnSegment p1 e.1 e.2 AREA_EPS && isPointOnSegment p2 e.1 e.2 AREA_EPS

/-- Add an amount to a per-color record entry, creating the key at the end. -/
def recordAdd (m : List (String × ℚ)) (c : String) (a : ℚ) : List (String × ℚ) :=
  match m with
  | [] => [(c, a)]
  | (k, v) :: rest => if k = c then (k, v + a) :: rest else (k, v) :: recordAdd rest c a

/-- The 4-corner tile polygon with sentinel ids `-1 … -4`, as built inline in
`calculateStatsForArea` and `handleCut`. -/
def tilePolygonOf (tile : Tile) : List Pt :=
  [⟨-1, tile.x, tile.y⟩, ⟨-2, tile.x + tile.width, tile.y⟩,
   ⟨-3, tile.x + tile.width, tile.y + tile.height⟩, ⟨-4, tile.x, tile.y + tile.height⟩]

/-- A tile viewed as its axis-aligned rectangle. -/
def tileRect (tile : Tile) : RectQ := ⟨tile.x, tile.y, tile.width, tile.height⟩

/-- `calculateStatsForArea` from `App.tsx`. -/
noncomputable def calculateStatsForArea (area : Area) (allTiles : List Tile)
    (tileDims : TileDimensions) : Area :=
  if ¬area.isClosed ∨ area.points.length < 3 then
    { area with calculationResult := none }
  else
    let areaPolygon :=
      if isPolygonClockwise area.points then area.points.reverse else area.points
    let pArea := polygonArea areaPolygon
    let perimeter := polygonPerimeter areaPolygon
    let singleTileArea := tileDims.width * tileDims.height
    if singleTileArea = 0 then
      let res : CalculationResult :=
        { tileCount := 0, colorCount := 0, tileCountsByColor := [],
          total := 0, polygonArea := pArea, perimeter := perimeter }
      { area with calculationResult := some res }
    else
      let intersectingTiles := allTiles.filter fun tile =>
        polygonIntersectsRectangle areaPolygon (tileRect tile)
      let acc := intersectingTiles.foldl
        (fun (acc : ℚ × List (String × ℚ)) tile =>
          let intersection := clipPolygonByPolygon (tilePolygonOf tile) areaPolygon
          let intersectionArea := polygonArea intersection
          if intersectionArea > AREA_EPS then
            (acc.1 + intersectionArea, recordAdd acc.2 tile.color intersectionArea)
          else acc)
        ((0 : ℚ), ([] : List (String × ℚ)))
      let finalTileCount := acc.1 / singleTileArea
      let finalTileCountsByColor := acc.2.map fun p => (p.1, p.2 / singleTileArea)
      let colorCount := finalTileCountsByColor.length
      let res : CalculationResult :=
        { tileCount := finalTileCount, colorCount := colorCount,
          tileCountsByColor := finalTileCountsByColor, total := finalTileCount,
          polygonArea := pArea, perimeter := perimeter }
      { area with calculationResult := some res }

/-- The winding-corrected closed, visible areas of `handleCut`. -/
def correctAreas (areas : List Area) : List Area :=
  (areas.filter fun a => a.isClosed && a.isVisible).map fun area =>
    if isPolygonClockwise area.points then { area with points := area.points.reverse }
    else area

/-- The retained in-piece candidate polygons of one tile in `handleCut`: each
per-area clip whose area exceeds `1e-6`, in area order. -/
def inPieceCandidates (correctedAreas : List Area) (tile : Tile) : List (List Pt) :=
  correctedAreas.foldl
    (fun acc area =>
      let intersection := clipPolygonByPolygon (tilePolygonOf tile) area.points
      if polygonArea intersection > AREA_EPS then acc ++ [intersection] else acc)
    []

/-- The cut segments of one tile: candidate polygon edges that do not retrace
the tile's own boundary. -/
def cutSegmentsOf (cands : List (List Pt)) (tile : Tile) : List (List Pt) :=
  cands.foldl
    (fun acc poly =>
      acc ++ ((List.range poly.length).filterMap fun i =>
        let p1 := poly.getD i default
        let p2 := poly.getD ((i + 1) % poly.length) default
        if isSegmentOnTileBoundary p1 p2 tile then none else some [p1, p2]))
    []

/-- Shift a point into tile-local coordinates (`{...p, x: p.x - tile.x, ...}`,
keeping the id). -/
def localize (tile : Tile) (p : Pt) : Pt := { p with x := p.x - tile.x, y := p.y - tile.y }

/-- Shift a cut-segment point into tile-local coordinates, resetting the id. -/
def localizeSeg (tile : Tile) (p : Pt) : Pt := ⟨-1, p.x - tile.x, p.y - tile.y⟩

/-- The full tile rectangle in local coordinates, the outer boundary emitted
for offcut pieces. -/
def localTileRect (tile : Tile) : List Pt :=
  [⟨-1, 0, 0⟩, ⟨-1, tile.width, 0⟩, ⟨-1, tile.width, tile.height⟩, ⟨-1, 0, tile.height⟩]

/-- `totalInPieceArea`: sum of the candidate areas. -/
def totalInPieceArea (cands : List (List Pt)) : ℚ :=
  cands.foldl (fun sum p => sum + polygonArea p) 0

/-- The per-tile body of `handleCut`'s `tiles.forEach` loop: the pieces pushed
for one tile. -/
def processTile (correctedAreas : List Area) (tile : Tile) : List CutTilePiece :=
  let cands := inPieceCandidates correctedAreas tile
  let cutSegs := cutSegmentsOf cands tile
  let inside := totalInPieceArea cands
  let nominal := tile.width * tile.height
  if inside < AREA_EPS then
    [{ id := toString tile.id ++ "-offcut", originalTile := tile, isOffcut := true,
       x := tile.x, y := tile.y, polygons := [localTileRect tile],
       wastePercentage := 100, cutSegments := some [] }]
  else
    (cands.enum.map fun p =>
      { id := toString tile.id ++ "-in-" ++ toString p.1, originalTile := tile,
        isOffcut := false, x := tile.x, y := tile.y,
        polygons := [p.2.map (localize tile)], wastePercentage := 0,
        cutSegments := none }) ++
    (if nominal - inside > AREA_EPS then
      [{ id := toString tile.id ++ "-offcut", originalTile := tile, isOffcut := true,
         x := tile.x, y := tile.y,
         polygons := localTileRect tile :: cands.map (fun poly => poly.map (localize tile)),
         cutSegments := some (cutSegs.map fun seg => seg.map (localizeSeg tile)),
         wastePercentage := if nominal > 0 then ((nominal - inside) / nominal) * 100 else 0 }]
    else [])

/-- All pieces produced by `handleCut` before layout: one `processTile` batch
per tile, in tile order. -/
def allCutPieces (areas : List Area) (tiles : List Tile) : List CutTilePiece :=
  tiles.flatMap fun t => processTile (correctAreas areas) t

/-- Parse the ordinal from a tile number: `parseInt` of the part after the
first dash (`(number || '0-0').split('-')[1]`); modelled for digit strings. -/
def ordinalOf (t : Tile) : ℕ :=
  ((((t.number.getD "0-0").splitOn "-").getD 1 "").toNat?).getD 0

/-- The offcut sort comparator `numA - numB` as a `le` predicate. -/
def pieceLe (a b : CutTilePiece) : Bool :=
  decide (ordinalOf a.originalTile ≤ ordinalOf b.originalTile)

/-- `offcutPiecesByColor`: offcut pieces grouped by originating tile color. -/
def offcutPiecesByColor (pieces : List CutTilePiece) : List (String × List CutTilePiece) :=
  (pieces.filter (·.isOffcut)).foldl (fun m p => groupAdd m p.originalTile.color p) []

/-- The bounding-box inputs of the offcut layout: every area point and both
corners of every tile. -/
def layoutPoints (areas : List Area) (tiles : List Tile) : List Pt :=
  (areas.flatMap fun a => a.points) ++
    (tiles.flatMap fun t => [⟨-1, t.x, t.y⟩, ⟨-1, t.x + t.width, t.y + t.height⟩])

/-- `Math.min(...points.map(p => p.x))`, `0` when there are no points. -/
def minXOf (ps : List Pt) : ℚ :=
  match ps with
  | [] => 0
  | p :: rest => rest.foldl (fun m q => min m q.x) p.x

/-- `Math.max(...points.map(p => p.y))`, `0` when there are no points. -/
def maxYOf (ps : List Pt) : ℚ :=
  match ps with
  | [] => 0
  | p :: rest => rest.foldl (fun m q => max m q.y) p.y

/-- The color sort comparator `TILE_COLORS.indexOf(a) - TILE_COLORS.indexOf(b)`
as a `le` predicate. -/
def colorLe (a b : String) : Bool := decide (colorIndexOf a ≤ colorIndexOf b)

/-- The offcut group keys sorted into fixed palette order. -/
def sortedColors (groups : List (String × List CutTilePiece)) : List String :=
  (groups.map (·.1)).mergeSort colorLe

/-- `Math.max(0, ...pieces.map(p => p.originalTile.height))`. -/
def maxHeightInRow (pieces : List CutTilePiece) : ℚ :=
  pieces.foldl (fun m p => max m p.originalTile.height) 0

/-- Place one color row left to right: each piece at the running `x`, advanced
by the original tile width plus the padding. -/
def placeRow (pad y : ℚ) : ℚ → List CutTilePiece → List CutTilePiece
  | _, [] => []
  | x0, p :: ps =>
      { p with x := x0, y := y } :: placeRow pad y (x0 + p.originalTile.width + pad) ps

/-- The color-group placement loop of `handleCut`: each group is one row; the
next row starts after the tallest original tile height plus twice the
padding. -/
def packGroups (minX pad : ℚ) : ℚ → List (String × List CutTilePiece) →
    List (String × List CutTilePiece)
  | _, [] => []
  | y, (c, ps) :: rest =>
      let maxH := maxHeightInRow ps
      let sorted := ps.mergeSort pieceLe
      (c, placeRow pad y minX sorted) :: packGroups minX pad (y + maxH + pad * 2) rest

/-- The ordered offcut groups (palette color order) fed to the placement
loop. -/
def orderedOffcutGroups (pieces : List CutTilePiece) : List (String × List CutTilePiece) :=
  let groups := offcutPiecesByColor pieces
  (sortedColors groups).map fun c => (c, (List.lookup c groups).getD [])

/-- The deterministic offcut shelf packing of `handleCut` (`App.tsx` lines
1403–1433): returns the placed pieces of each color group in row order. -/
def packOffcuts (areas : List Area) (tiles : List Tile) (tileDimensions : TileDimensions)
    (pieces : List CutTilePiece) : List (String × List CutTilePiece) :=
  let pts := layoutPoints areas tiles
  let minX := minXOf pts
  let maxY := maxYOf pts
  let PADDING := tileDimensions.width / 2
  packGroups minX PADDING (maxY + PADDING * 3) (orderedOffcutGroups pieces)

/-- Stated from the spec's words, for comparison with `renumberTilesByColor`:
the numbered tiles of one color in document order, sorted by
(y ascending, then x ascending). -/
def specColorGroup (tiles : List Tile) (c : String) : List Tile :=
  (tiles.filter fun t => decide (¬t.number = none ∧ t.color = c)).mergeSort tileLe

/-- `SNAP_DISTANCE` (pixels) from `Canvas.tsx`. -/
def SNAP_DISTANCE : ℝ := 20

/-- A raw world-space position `{x, y}`. -/
structure V2 where
  x : ℝ
  y : ℝ

/-- An area point as seen by the snap resolver (real coordinates). -/
structure RPt where
  id : Int
  x : ℝ
  y : ℝ

instance : Inhabited RPt := ⟨⟨0, 0, 0⟩⟩

/-- A wall as seen by the snap resolver. -/
structure RWall where
  id : Int
  p1Id : Int
  p2Id : Int

/-- The slice of an `Area` the snap resolver reads. -/
structure RArea where
  points : List RPt
  walls : List RWall

/-- `SnapType` from `types.ts`. -/
inductive SnapType
  | vertex
  | midpoint
  | intersection
  | grid
  | extension
  | none
deriving DecidableEq, Repr

/-- The `{ pos, type }` result of the snap resolver. -/
structure SnapResult where
  pos : V2
  type : SnapType

/-- The `snapModes` flag set `{grid, osnap, otrack}`. -/
structure SnapModes where
  grid : Bool
  osnap : Bool
  otrack : Bool

/-- The `type` tag of a tracking guide line. -/
inductive TrackKind
  | horizontal
  | vertical
  | extensionGuide

/-- A tracking guide line through `p1` and `p2`. -/
structure TrackLine where
  kind : TrackKind
  p1 : V2
  p2 : V2

/-- The `trackingGuides` state: candidate lines and the intersection of the
two best guides, when present. -/
structure TrackingGuides where
  lines : List TrackLine
  intersection : Option V2

/-- `Tool` from `types.ts`. -/
inductive Tool
  | POINTER
  | WALL
  | MOVE
  | ERASE
  | PAN
  | FIELD
  | TILE
  | PLACE_FIELD
  | FILL
  | CUT
deriving DecidableEq

/-- The inputs `getSnappedPos` reads from component state. -/
structure SnapEnv where
  activeTool : Tool
  activeArea : Option RArea
  activeAngleSnap : Option ℝ
  activeLengthSnap : Option ℝ
  snapModes : SnapModes
  trackingGuides : TrackingGuides
  visibleAreas : List RArea
  tileW : ℝ
  tileH : ℝ
  zoom : ℝ

/-- `distance` on raw positions (the square root form used in `Canvas.tsx`). -/
noncomputable def rdist (p1 p2 : V2) : ℝ :=
  Real.sqrt ((p2.x - p1.x) ^ 2 + (p2.y - p1.y) ^ 2)

/-- The view of an area point as a raw position. -/
def rptPos (p : RPt) : V2 := ⟨p.x, p.y⟩

/-- The running `bestSnap` record (`dist` starts at `Infinity`, modelled as
`⊤ : EReal`). -/
structure BestSnap where
  pos : V2
  dist : EReal
  type : SnapType

open Classical in
/-- The vertex scan of `getSnappedPos`: replace the running best snap by each
strictly closer in-radius point. -/
noncomputable def foldVertexSnaps (pos : V2) (snapRadius : ℝ) :
    BestSnap → List RPt → BestSnap
  | best, [] => best
  | best, p :: ps =>
      let d := rdist pos (rptPos p)
      let best' :=
        if d < snapRadius ∧ (d : EReal) < best.dist then
          ⟨rptPos p, (d : EReal), SnapType.vertex⟩
        else best
      foldVertexSnaps pos snapRadius best' ps

/-- `points.find(p => p.id === id)`. -/
def findPointById (points : List RPt) (id : Int) : Option RPt :=
  points.find? fun p => decide (p.id = id)

/-- The wall midpoint candidate: both endpoints resolved by id lookup in the
owning area's points; `none` when either lookup fails. -/
noncomputable def wallMid (points : List RPt) (w : RWall) : Option V2 :=
  match findPointById points w.p1Id, findPointById points w.p2Id with
  | some p1, some p2 => some ⟨(p1.x + p2.x) / 2, (p1.y + p2.y) / 2⟩
  | _, _ => none

open Classical in
/-- The midpoint scan of `getSnappedPos`, running after the vertex scan on the
same best-snap state. -/
noncomputable def foldMidSnaps (pos : V2) (snapRadius : ℝ) :
    BestSnap → List (RWall × List RPt) → BestSnap
  | best, [] => best
  | best, (w, pts) :: rest =>
      let best' :=
        match wallMid pts w with
        | some mid =>
            let d := rdist pos mid
            if d < snapRadius ∧ (d : EReal) < best.dist then
              ⟨mid, (d : EReal), SnapType.midpoint⟩
            else best
        | none => best
      foldMidSnaps pos snapRadius best' rest

/-- `visibleAreas.flatMap(a => a.points)`. -/
def allSnapPoints (visibleAreas : List RArea) : List RPt :=
  visibleAreas.flatMap (·.points)

/-- `visibleAreas.flatMap(a => a.walls.map(w => ({wall: w, points: a.points})))`. -/
def allSnapWalls (visibleAreas : List RArea) : List (RWall × List RPt) :=
  visibleAreas.flatMap fun a => a.walls.map fun w => (w, a.points)

open Classical in
/-- The tracking-line projection scan (`bestLineSnapPos` / `minSnapDist`). -/
noncomputable def foldLineSnaps (pos : V2) :
    Option V2 × ℝ → List TrackLine → Option V2 × ℝ
  | acc, [] => acc
  | acc, line :: rest =>
      let dx := line.p2.x - line.p1.x
      let dy := line.p2.y - line.p1.y
      if dx = 0 ∧ dy = 0 then foldLineSnaps pos acc rest
      else
        let t := ((pos.x - line.p1.x) * dx + (pos.y - line.p1.y) * dy) / (dx * dx + dy * dy)
        let snapped : V2 := ⟨line.p1.x + t * dx, line.p1.y + t * dy⟩
        let dist := rdist pos snapped
        if dist < acc.2 then foldLineSnaps pos (some snapped, dist) rest
        else foldLineSnaps pos acc rest

/-- JavaScript `Math.round`: half-integers round toward `+∞`. -/
noncomputable def jsRound (x : ℝ) : ℤ := ⌊x + 1 / 2⌋

open Classical in
/-- The ordinary (non-polar) resolution path of `getSnappedPos`
(`Canvas.tsx` lines 327–358). -/
noncomputable def ordinarySnap (env : SnapEnv) (pos : V2) : SnapResult :=
  let snapRadius := SNAP_DISTANCE / env.zoom
  let best0 : BestSnap := ⟨pos, ⊤, SnapType.none⟩
  let best1 :=
    match env.trackingGuides.intersection with
    | some q =>
        if env.snapModes.otrack ∧ rdist pos q < snapRadius then
          ⟨q, (rdist pos q : EReal), SnapType.intersection⟩
        else best0
    | none => best0
  let best2 :=
    if env.snapModes.osnap then
      foldMidSnaps pos snapRadius
        (foldVertexSnaps pos snapRadius best1 (allSnapPoints env.visibleAreas))
        (allSnapWalls env.visibleAreas)
    else best1
  let gridOrNone : SnapResult :=
    if env.snapModes.grid then
      ⟨⟨(jsRound (pos.x / env.tileW) : ℝ) * env.tileW,
        (jsRound (pos.y / env.tileH) : ℝ) * env.tileH⟩, SnapType.grid⟩
    else ⟨pos, SnapType.none⟩
  if best2.type ∈ [SnapType.intersection, SnapType.vertex, SnapType.midpoint] then
    ⟨best2.pos, best2.type⟩
  else if env.snapModes.otrack ∧ env.trackingGuides.lines ≠ [] then
    match (foldLineSnaps pos (Option.none, snapRadius) env.trackingGuides.lines).1 with
    | some p => ⟨p, SnapType.extension⟩
    | none => gridOrNone
  else gridOrNone

/-- `Math.atan2(y, x)`, via the complex argument (range `(-π, π]`). -/
noncomputable def atan2 (y x : ℝ) : ℝ := Complex.arg ⟨x, y⟩

/-- The first wrapping loop of the polar resolver:
`while (raw <= -π) raw += 2π`. -/
noncomputable def wrapUp (θ : ℝ) : ℝ :=
  if h : θ ≤ -Real.pi then wrapUp (θ + 2 * Real.pi) else θ
termination_by ⌈(-Real.pi - θ) / (2 * Real.pi) + 1⌉₊
decreasing_by
  have hπ := Real.pi_pos
  have h0 : (0 : ℝ) ≤ (-Real.pi - θ) / (2 * Real.pi) := by
    apply div_nonneg <;> linarith
  have hrw : (-Real.pi - (θ + 2 * Real.pi)) / (2 * Real.pi) =
      (-Real.pi - θ) / (2 * Real.pi) - 1 := by
    field_simp
    ring
  rw [hrw, sub_add_cancel]
  rw [Nat.ceil_add_one h0]
  omega

/-- The second wrapping loop of the polar resolver:
`while (raw > π) raw -= 2π`. -/
noncomputable def wrapDown (θ : ℝ) : ℝ :=
  if h : Real.pi < θ then wrapDown (θ - 2 * Real.pi) else θ
termination_by ⌈(θ - Real.pi) / (2 * Real.pi) + 1⌉₊
decreasing_by
  have hπ := Real.pi_pos
  have h0 : (0 : ℝ) ≤ (θ - Real.pi) / (2 * Real.pi) := by
    apply div_nonneg <;> linarith
  have hrw : (θ - 2 * Real.pi - Real.pi) / (2 * Real.pi) =
      (θ - Real.pi) / (2 * Real.pi) - 1 := by
    field_simp
    ring
  rw [hrw, sub_add_cancel]
  rw [Nat.ceil_add_one h0]
  omega

open Classical in
/-- The reference direction of the polar resolver: the previous committed
segment's angle when at least two points are placed, else `0`. -/
noncomputable def polarBaseAngle (points : List RPt) (lastPoint : RPt) : ℝ :=
  if 2 ≤ points.length then
    let s := points.getD (points.length - 2) default
    atan2 (lastPoint.y - s.y) (lastPoint.x - s.x)
  else 0

open Classical in
/-- `finalAngleRad` of the polar resolver: wrap the relative angle into
`(-π, π]`, round to the nearest increment multiple, re-add the reference. -/
noncomputable def polarFinalAngle (points : List RPt) (lastPoint : RPt)
    (activeAngleSnap : Option ℝ) (pos : V2) : ℝ :=
  let raw := atan2 (pos.y - lastPoint.y) (pos.x - lastPoint.x)
  match activeAngleSnap with
  | some a =>
      let snapAngleRad := a * (Real.pi / 180)
      let base := polarBaseAngle points lastPoint
      let rel := wrapDown (wrapUp (raw - base))
      base + (jsRound (rel / snapAngleRad) : ℝ) * snapAngleRad
  | none => raw

open Classical in
/-- `finalDist` of the polar resolver: the raw distance, rounded to the nearest
multiple of a positive length increment. -/
noncomputable def polarFinalDist (lastPoint : RPt) (activeLengthSnap : Option ℝ)
    (pos : V2) : ℝ :=
  let dx := pos.x - lastPoint.x
  let dy := pos.y - lastPoint.y
  let d := Real.sqrt (dx * dx + dy * dy)
  match activeLengthSnap with
  | some L => if L > 0 then (jsRound (d / L) : ℝ) * L else d
  | none => d

open Classical in
/-- The polar branch of `getSnappedPos` (`Canvas.tsx` lines 307–325). -/
noncomputable def polarSnap (points : List RPt) (lastPoint : RPt)
    (activeAngleSnap activeLengthSnap : Option ℝ) (pos : V2) : SnapResult :=
  let finalAngleRad := polarFinalAngle points lastPoint activeAngleSnap pos
  let finalDist := polarFinalDist lastPoint activeLengthSnap pos
  if finalDist = 0 then ⟨rptPos lastPoint, SnapType.vertex⟩
  else
    ⟨⟨lastPoint.x + finalDist * Real.cos finalAngleRad,
      lastPoint.y + finalDist * Real.sin finalAngleRad⟩, SnapType.extension⟩

open Classical in
/-- `getSnappedPos` from `Canvas.tsx`: the polar branch when drawing a wall
with an angle or length increment active, else the ordinary path. -/
noncomputable def getSnappedPos (env : SnapEnv) (pos : V2) : SnapResult :=
  let points := (env.activeArea.map RArea.points).getD []
  match points.getLast? with
  | some lastPoint =>
      if env.activeTool = Tool.WALL ∧
          (env.activeAngleSnap ≠ Option.none ∨ env.activeLengthSnap ≠ Option.none) then
        polarSnap points lastPoint env.activeAngleSnap env.activeLengthSnap pos
      else ordinarySnap env pos
  | none => ordinarySnap env pos

theorem adjShoelace_append (xs : List Pt) (y : Pt) (h : xs ≠ []) :
    adjShoelace (xs ++ [y]) =
      adjShoelace xs + (y.x * (xs.getLast h).y - (xs.getLast h).x * y.y) := by
  induction xs with
  | nil => exact absurd rfl h
  | cons a rest ih =>
    cases rest with
    | nil => simp [adjShoelace]
    | cons b rest' =>
      have h' : b :: rest' ≠ [] := by simp
      have : (a :: b :: rest') ++ [y] = a :: ((b :: rest') ++ [y]) := by simp
      rw [this]
      have hbr : (b :: rest') ++ [y] = b :: (rest' ++ [y]) := by simp
      calc adjShoelace (a :: (b :: rest') ++ [y])
          = (b.x * a.y - a.x * b.y) + adjShoelace ((b :: rest') ++ [y]) := by
            rw [hbr]; rfl
        _ = (b.x * a.y - a.x * b.y) + (adjShoelace (b :: rest') +
              (y.x * ((b :: rest').getLast h').y - ((b :: rest').getLast h').x * y.y)) := by
            rw [ih h']
        _ = adjShoelace (a :: b :: rest') +
              (y.x * ((a :: b :: rest').getLast h).y -
                ((a :: b :: rest').getLast h).x * y.y) := by
            rw [List.getLast_cons h']
            show _ = (b.x * a.y - a.x * b.y) + adjShoelace (b :: rest') + _
            ring

theorem adjShoelace_reverse (l : List Pt) :
    adjShoelace l.reverse = -adjShoelace l := by
  induction l with
  | nil => simp [adjShoelace]
  | cons a rest ih =>
    cases rest with
    | nil => simp [adjShoelace]
    | cons b rest' =>
      have h' : (b :: rest').reverse ≠ [] := by simp
      have hrev : (a :: b :: rest').reverse = (b :: rest').reverse ++ [a] := by
        simp
      rw [hrev, adjShoelace_append _ _ h', ih]
      have hlast : ((b :: rest').reverse.getLast h') = b := by
        rw [List.getLast_reverse]; rfl
      rw [hlast]
      show _ = -((b.x * a.y - a.x * b.y) + adjShoelace (b :: rest'))
      ring

theorem shoelaceSum_reverse (l : List Pt) :
    shoelaceSum l.reverse = -shoelaceSum l := by
  unfold shoelaceSum
  rw [List.head?_reverse, List.getLast?_reverse, adjShoelace_reverse]
  cases hh : l.head? with
  | none => simp
  | some a =>
    cases hz : l.getLast? with
    | none =>
      rcases l with _ | ⟨x, xs⟩
      · simp at hh
      · simp at hz
    | some z => simp; ring

/-- C9: `polygonArea` is invariant under reversing the vertex order (the
absolute value of the signed shoelace sum cancels the sign flip), and any
polygon with fewer than 3 points has area `0`. -/
theorem polygonArea_reverse_orientation_independent (P : List Pt) :
    polygonArea P.reverse = polygonArea P ∧ (P.length < 3 → polygonArea P = 0) := by
  constructor
  · unfold polygonArea
    rw [List.length_reverse, shoelaceSum_reverse]
    by_cases h : P.length < 3
    · simp [h]
    · simp only [h, if_false]
      rw [neg_div, abs_neg]
  · intro h
    unfold polygonArea
    simp [h]

/-- Witness for C9: a two-point polygon has area `0`, and a concrete triangle
has the same area as its reversal. -/
theorem polygonArea_reverse_orientation_independent_witness :
    polygonArea [⟨1, 0, 0⟩, ⟨2, 4, 0⟩] = 0 ∧
    polygonArea ([⟨1, 0, 0⟩, ⟨2, 4, 0⟩, ⟨3, 0, 3⟩] : List Pt).reverse =
      polygonArea [⟨1, 0, 0⟩, ⟨2, 4, 0⟩, ⟨3, 0, 3⟩] :=
  ⟨(polygonArea_reverse_orientation_independent [⟨1, 0, 0⟩, ⟨2, 4, 0⟩]).2 (by decide),
   (polygonArea_reverse_orientation_independent [⟨1, 0, 0⟩, ⟨2, 4, 0⟩, ⟨3, 0, 3⟩]).1⟩

/-- C4: for every area that is not closed or has fewer than 3 points,
`calculateStatsForArea` returns the area with a `null` calculation result,
regardless of the tile set and tile dimensions. -/
theorem calculateStatsForArea_degenerate (area : Area) (allTiles : List Tile)
    (tileDims : TileDimensions) (h : ¬area.isClosed ∨ area.points.length < 3) :
    calculateStatsForArea area allTiles tileDims =
      { area with calculationResult := none } := by
  unfold calculateStatsForArea
  rw [if_pos h]

/-- Witness for C4: a concrete open area gets a `null` result. -/
theorem calculateStatsForArea_degenerate_witness :
    calculateStatsForArea
      ⟨7, "Area 1", [⟨1, 0, 0⟩, ⟨2, 10, 0⟩, ⟨3, 10, 10⟩], [], "#06b6d4", false, none, true⟩
      [] ⟨465, 465⟩ =
    { (⟨7, "Area 1", [⟨1, 0, 0⟩, ⟨2, 10, 0⟩, ⟨3, 10, 10⟩], [], "#06b6d4", false, none, true⟩ : Area)
        with calculationResult := none } :=
  calculateStatsForArea_degenerate _ _ _ (Or.inl (by decide))

/-- C5: for a closed area with at least 3 points and zero nominal tile area,
`calculateStatsForArea` returns zeroed tile counts, an empty per-color map,
and the polygon area and perimeter computed from the normalized polygon; it
performs no division by zero. -/
theorem calculateStatsForArea_zero_tile_area (area : Area) (allTiles : List Tile)
    (tileDims : TileDimensions) (hclosed : area.isClosed)
    (h3 : 3 ≤ area.points.length) (h0 : tileDims.width * tileDims.height = 0) :
    calculateStatsForArea area allTiles tileDims =
      { area with
        calculationResult := some
          ⟨0, 0, [], 0,
           polygonArea (if isPolygonClockwise area.points then area.points.reverse else area.points),
           polygonPerimeter (if isPolygonClockwise area.points then area.points.reverse else area.points)⟩ } := by
  unfold calculateStatsForArea
  rw [if_neg, if_pos h0]
  push_neg
  exact ⟨by simpa using hclosed, by omega⟩

/-- Witness for C5: a closed triangle with `0 × 465` tiles. -/
theorem calculateStatsForArea_zero_tile_area_witness :
    calculateStatsForArea
      ⟨7, "Area 1", [⟨1, 0, 0⟩, ⟨2, 10, 0⟩, ⟨3, 10, 10⟩], [], "#06b6d4", true, none, true⟩
      [] ⟨0, 465⟩ =
    { (⟨7, "Area 1", [⟨1, 0, 0⟩, ⟨2, 10, 0⟩, ⟨3, 10, 10⟩], [], "#06b6d4", true, none, true⟩ : Area)
        with
        calculationResult := some
          ⟨0, 0, [], 0,
           polygonArea (if isPolygonClockwise [⟨1, 0, 0⟩, ⟨2, 10, 0⟩, ⟨3, 10, 10⟩]
             then ([⟨1, 0, 0⟩, ⟨2, 10, 0⟩, ⟨3, 10, 10⟩] : List Pt).reverse
             else [⟨1, 0, 0⟩, ⟨2, 10, 0⟩, ⟨3, 10, 10⟩]),
           polygonPerimeter (if isPolygonClockwise [⟨1, 0, 0⟩, ⟨2, 10, 0⟩, ⟨3, 10, 10⟩]
             then ([⟨1, 0, 0⟩, ⟨2, 10, 0⟩, ⟨3, 10, 10⟩] : List Pt).reverse
             else [⟨1, 0, 0⟩, ⟨2, 10, 0⟩, ⟨3, 10, 10⟩])⟩ } :=
  calculateStatsForArea_zero_tile_area _ _ _ (by decide) (by decide) (by norm_num)

/-- C10: `calculateStatsForArea` leaves every field of the input area other
than `calculationResult` unchanged — in particular the points list (even when
a reversed copy is used internally for clipping), id, name, walls, color,
closed flag and visibility flag. -/
theorem calculateStatsForArea_frame (area : Area) (allTiles : List Tile)
    (tileDims : TileDimensions) :
    (calculateStatsForArea area allTiles tileDims).id = area.id ∧
    (calculateStatsForArea area allTiles tileDims).name = area.name ∧
    (calculateStatsForArea area allTiles tileDims).points = area.points ∧
    (calculateStatsForArea area allTiles tileDims).walls = area.walls ∧
    (calculateStatsForArea area allTiles tileDims).color = area.color ∧
    (calculateStatsForArea area allTiles tileDims).isClosed = area.isClosed ∧
    (calculateStatsForArea area allTiles tileDims).isVisible = area.isVisible := by
  unfold calculateStatsForArea
  split
  · simp
  · dsimp only
    split <;> simp

theorem shPassGo_all_inside (c1 c2 : Pt) (S : Pt) (l : List Pt)
    (hS : crossProduct c2 c1 S ≥ 0) (hl : ∀ p ∈ l, crossProduct c2 c1 p ≥ 0) :
    shPassGo c1 c2 S l = l := by
  induction l generalizing S with
  | nil => rfl
  | cons E es ih =>
    have hE : crossProduct c2 c1 E ≥ 0 := hl E (by simp)
    have hes : ∀ p ∈ es, crossProduct c2 c1 p ≥ 0 := fun p hp => hl p (by simp [hp])
    unfold shPassGo
    dsimp only
    rw [if_pos ⟨hS, hE⟩, ih E hE hes]
    rfl

theorem shPass_all_inside (c1 c2 : Pt) (input : List Pt)
    (h : ∀ p ∈ input, crossProduct c2 c1 p ≥ 0) : shPass c1 c2 input = input := by
  unfold shPass
  cases hL : input.getLast? with
  | none => rw [List.getLast?_eq_none_iff] at hL; rw [hL]
  | some S =>
    exact shPassGo_all_inside _ _ _ _ (h S (List.mem_of_mem_getLast? hL)) h

theorem clip_foldl_all_inside (subject : List Pt) (hne : subject ≠ [])
    (es : List (Pt × Pt))
    (h : ∀ e ∈ es, ∀ p ∈ subject, crossProduct e.2 e.1 p ≥ 0) :
    es.foldl (fun out e => if out.isEmpty then out else shPass e.1 e.2 out) subject
      = subject := by
  induction es with
  | nil => rfl
  | cons e es ih =>
    rw [List.foldl_cons]
    have h1 : subject.isEmpty = false := List.isEmpty_eq_false.mpr hne
    rw [h1]
    simp only [Bool.false_eq_true, if_false]
    rw [shPass_all_inside _ _ _ (h e (by simp))]
    exact ih fun e' he' => h e' (by simp [he'])

/-- C6 (amended): for a polygon wound counter-clockwise and convex with
respect to the clip sign convention (every vertex on the inside side of every
directed edge), clipping the polygon by itself returns it unchanged, so the
clipped area equals `polygonArea P` within `1e-6`. -/
theorem clipPolygonByPolygon_self_convex (P : List Pt) (h3 : 3 ≤ P.length)
    (hconv : ∀ e ∈ polygonEdges P, ∀ p ∈ P, crossProduct e.2 e.1 p ≥ 0) :
    clipPolygonByPolygon P P = P ∧
    |polygonArea (clipPolygonByPolygon P P) - polygonArea P| ≤ AREA_EPS := by
  have hne : P ≠ [] := by
    intro h
    rw [h] at h3
    simp at h3
  have hmain : clipPolygonByPolygon P P = P := by
    unfold clipPolygonByPolygon
    exact clip_foldl_all_inside P hne _ hconv
  refine ⟨hmain, ?_⟩
  rw [hmain, sub_self, abs_zero]
  norm_num [AREA_EPS]

/-- Witness for the amended C6: a concrete counter-clockwise convex square. -/
theorem clipPolygonByPolygon_self_convex_witness :
    clipPolygonByPolygon [⟨1, 0, 0⟩, ⟨2, 4, 0⟩, ⟨3, 4, 4⟩, ⟨4, 0, 4⟩]
        [⟨1, 0, 0⟩, ⟨2, 4, 0⟩, ⟨3, 4, 4⟩, ⟨4, 0, 4⟩] =
      [⟨1, 0, 0⟩, ⟨2, 4, 0⟩, ⟨3, 4, 4⟩, ⟨4, 0, 4⟩] ∧
    |polygonArea (clipPolygonByPolygon [⟨1, 0, 0⟩, ⟨2, 4, 0⟩, ⟨3, 4, 4⟩, ⟨4, 0, 4⟩]
        [⟨1, 0, 0⟩, ⟨2, 4, 0⟩, ⟨3, 4, 4⟩, ⟨4, 0, 4⟩]) -
      polygonArea [⟨1, 0, 0⟩, ⟨2, 4, 0⟩, ⟨3, 4, 4⟩, ⟨4, 0, 4⟩]| ≤ AREA_EPS :=
  clipPolygonByPolygon_self_convex _ (by decide)
    (by
      norm_num [polygonEdges, List.range, List.range.loop, List.getD,
        List.forall_mem_cons, crossProduct])

/-- Counterexample to C6 as stated: an L-shaped counter-clockwise simple
hexagon whose self-clip loses both arms — the clipped area is 1 while the
polygon area is 3, so they differ by far more than `1e-6`. -/
theorem clipPolygonByPolygon_self_counterexample :
    isPolygonClockwise [⟨1, 0, 0⟩, ⟨2, 2, 0⟩, ⟨3, 2, 1⟩, ⟨4, 1, 1⟩, ⟨5, 1, 2⟩, ⟨6, 0, 2⟩] = false ∧
    polygonArea [⟨1, 0, 0⟩, ⟨2, 2, 0⟩, ⟨3, 2, 1⟩, ⟨4, 1, 1⟩, ⟨5, 1, 2⟩, ⟨6, 0, 2⟩] = 3 ∧
    polygonArea (clipPolygonByPolygon
      [⟨1, 0, 0⟩, ⟨2, 2, 0⟩, ⟨3, 2, 1⟩, ⟨4, 1, 1⟩, ⟨5, 1, 2⟩, ⟨6, 0, 2⟩]
      [⟨1, 0, 0⟩, ⟨2, 2, 0⟩, ⟨3, 2, 1⟩, ⟨4, 1, 1⟩, ⟨5, 1, 2⟩, ⟨6, 0, 2⟩]) = 1 ∧
    ¬ |polygonArea (clipPolygonByPolygon
        [⟨1, 0, 0⟩, ⟨2, 2, 0⟩, ⟨3, 2, 1⟩, ⟨4, 1, 1⟩, ⟨5, 1, 2⟩, ⟨6, 0, 2⟩]
        [⟨1, 0, 0⟩, ⟨2, 2, 0⟩, ⟨3, 2, 1⟩, ⟨4, 1, 1⟩, ⟨5, 1, 2⟩, ⟨6, 0, 2⟩]) -
      polygonArea [⟨1, 0, 0⟩, ⟨2, 2, 0⟩, ⟨3, 2, 1⟩, ⟨4, 1, 1⟩, ⟨5, 1, 2⟩, ⟨6, 0, 2⟩]| ≤ AREA_EPS := by
  have h1 : shPass (⟨1, 0, 0⟩ : Pt) ⟨2, 2, 0⟩
      [⟨1, 0, 0⟩, ⟨2, 2, 0⟩, ⟨3, 2, 1⟩, ⟨4, 1, 1⟩, ⟨5, 1, 2⟩, ⟨6, 0, 2⟩] =
      [⟨1, 0, 0⟩, ⟨2, 2, 0⟩, ⟨3, 2, 1⟩, ⟨4, 1, 1⟩, ⟨5, 1, 2⟩, ⟨6, 0, 2⟩] := by
    norm_num [shPass, shPassGo, getLineIntersection, crossProduct, EPSILON,
      List.getLast?_cons_cons, List.getLast?_singleton]
  have h2 : shPass (⟨2, 2, 0⟩ : Pt) ⟨3, 2, 1⟩
      [⟨1, 0, 0⟩, ⟨2, 2, 0⟩, ⟨3, 2, 1⟩, ⟨4, 1, 1⟩, ⟨5, 1, 2⟩, ⟨6, 0, 2⟩] =
      [⟨1, 0, 0⟩, ⟨2, 2, 0⟩, ⟨3, 2, 1⟩, ⟨4, 1, 1⟩, ⟨5, 1, 2⟩, ⟨6, 0, 2⟩] := by
    norm_num [shPass, shPassGo, getLineIntersection, crossProduct, EPSILON,
      List.getLast?_cons_cons, List.getLast?_singleton]
  have h3 : shPass (⟨3, 2, 1⟩ : Pt) ⟨4, 1, 1⟩
      [⟨1, 0, 0⟩, ⟨2, 2, 0⟩, ⟨3, 2, 1⟩, ⟨4, 1, 1⟩, ⟨5, 1, 2⟩, ⟨6, 0, 2⟩] =
      [⟨-1, 0, 1⟩, ⟨1, 0, 0⟩, ⟨2, 2, 0⟩, ⟨3, 2, 1⟩, ⟨4, 1, 1⟩, ⟨-1, 1, 1⟩] := by
    norm_num [shPass, shPassGo, getLineIntersection, crossProduct, EPSILON,
      List.getLast?_cons_cons, List.getLast?_singleton]
  have h4 : shPass (⟨4, 1, 1⟩ : Pt) ⟨5, 1, 2⟩
      [⟨-1, 0, 1⟩, ⟨1, 0, 0⟩, ⟨2, 2, 0⟩, ⟨3, 2, 1⟩, ⟨4, 1, 1⟩, ⟨-1, 1, 1⟩] =
      [⟨-1, 0, 1⟩, ⟨1, 0, 0⟩, ⟨-1, 1, 0⟩, ⟨-1, 1, 1⟩, ⟨4, 1, 1⟩, ⟨-1, 1, 1⟩] := by
    norm_num [shPass, shPassGo, getLineIntersection, crossProduct, EPSILON,
      List.getLast?_cons_cons, List.getLast?_singleton]
  have h5 : shPass (⟨5, 1, 2⟩ : Pt) ⟨6, 0, 2⟩
      [⟨-1, 0, 1⟩, ⟨1, 0, 0⟩, ⟨-1, 1, 0⟩, ⟨-1, 1, 1⟩, ⟨4, 1, 1⟩, ⟨-1, 1, 1⟩] =
      [⟨-1, 0, 1⟩, ⟨1, 0, 0⟩, ⟨-1, 1, 0⟩, ⟨-1, 1, 1⟩, ⟨4, 1, 1⟩, ⟨-1, 1, 1⟩] := by
    norm_num [shPass, shPassGo, getLineIntersection, crossProduct, EPSILON,
      List.getLast?_cons_cons, List.getLast?_singleton]
  have h6 : shPass (⟨6, 0, 2⟩ : Pt) ⟨1, 0, 0⟩
      [⟨-1, 0, 1⟩, ⟨1, 0, 0⟩, ⟨-1, 1, 0⟩, ⟨-1, 1, 1⟩, ⟨4, 1, 1⟩, ⟨-1, 1, 1⟩] =
      [⟨-1, 0, 1⟩, ⟨1, 0, 0⟩, ⟨-1, 1, 0⟩, ⟨-1, 1, 1⟩, ⟨4, 1, 1⟩, ⟨-1, 1, 1⟩] := by
    norm_num [shPass, shPassGo, getLineIntersection, crossProduct, EPSILON,
      List.getLast?_cons_cons, List.getLast?_singleton]
  have hedges : polygonEdges [⟨1, 0, 0⟩, ⟨2, 2, 0⟩, ⟨3, 2, 1⟩, ⟨4, 1, 1⟩, ⟨5, 1, 2⟩, ⟨6, 0, 2⟩] =
      [((⟨1, 0, 0⟩ : Pt), (⟨2, 2, 0⟩ : Pt)), (⟨2, 2, 0⟩, ⟨3, 2, 1⟩), (⟨3, 2, 1⟩, ⟨4, 1, 1⟩),
        (⟨4, 1, 1⟩, ⟨5, 1, 2⟩), (⟨5, 1, 2⟩, ⟨6, 0, 2⟩), (⟨6, 0, 2⟩, ⟨1, 0, 0⟩)] := by
    norm_num [polygonEdges, List.range, List.range.loop, List.getD]
  have hclip : clipPolygonByPolygon
      [⟨1, 0, 0⟩, ⟨2, 2, 0⟩, ⟨3, 2, 1⟩, ⟨4, 1, 1⟩, ⟨5, 1, 2⟩, ⟨6, 0, 2⟩]
      [⟨1, 0, 0⟩, ⟨2, 2, 0⟩, ⟨3, 2, 1⟩, ⟨4, 1, 1⟩, ⟨5, 1, 2⟩, ⟨6, 0, 2⟩] =
      [⟨-1, 0, 1⟩, ⟨1, 0, 0⟩, ⟨-1, 1, 0⟩, ⟨-1, 1, 1⟩, ⟨4, 1, 1⟩, ⟨-1, 1, 1⟩] := by
    unfold clipPolygonByPolygon
    rw [hedges]
    simp only [List.foldl_cons, List.foldl_nil, List.isEmpty_cons, Bool.false_eq_true,
      if_false, h1, h2, h3, h4, h5, h6]
  refine ⟨?_, ?_, ?_, ?_⟩
  · norm_num [isPolygonClockwise, List.range, List.range.loop, List.getD]
  · norm_num [polygonArea, shoelaceSum, adjShoelace, List.getLast?_cons_cons,
      List.getLast?_singleton]
  · rw [hclip]
    norm_num [polygonArea, shoelaceSum, adjShoelace, List.getLast?_cons_cons,
      List.getLast?_singleton]
  · rw [hclip]
    norm_num [polygonArea, shoelaceSum, adjShoelace, List.getLast?_cons_cons,
      List.getLast?_singleton, AREA_EPS]

/-- C1: for every tile processed by the cut decomposition, if the summed area
of its retained in-piece candidates is below `1e-6` then exactly one piece is
emitted: an offcut whose outer boundary is the full tile rectangle in local
coordinates, with no holes, no cut segments, and `wastePercentage = 100`;
otherwise one in-piece (`isOffcut = false`, `wastePercentage = 0`) per
retained candidate and, when `nominalArea - insideArea > 1e-6`, exactly one
additional offcut whose outer boundary is the full tile rectangle, whose
holes are all candidate polygons in local coordinates, and whose
`wastePercentage = (nominalArea - insideArea) / nominalArea * 100`. -/
theorem processTile_classification (correctedAreas : List Area) (tile : Tile) :
    (totalInPieceArea (inPieceCandidates correctedAreas tile) < AREA_EPS →
      processTile correctedAreas tile =
        [⟨toString tile.id ++ "-offcut", tile, [localTileRect tile], some [],
          tile.x, tile.y, true, 100⟩]) ∧
    (¬ totalInPieceArea (inPieceCandidates correctedAreas tile) < AREA_EPS →
      processTile correctedAreas tile =
        ((inPieceCandidates correctedAreas tile).enum.map fun p =>
          (⟨toString tile.id ++ "-in-" ++ toString p.1, tile,
            [p.2.map (localize tile)], none, tile.x, tile.y, false, 0⟩ : CutTilePiece)) ++
        (if tile.width * tile.height - totalInPieceArea (inPieceCandidates correctedAreas tile)
            > AREA_EPS then
          [⟨toString tile.id ++ "-offcut", tile,
            localTileRect tile ::
              (inPieceCandidates correctedAreas tile).map (fun poly => poly.map (localize tile)),
            some ((cutSegmentsOf (inPieceCandidates correctedAreas tile) tile).map
              fun seg => seg.map (localizeSeg tile)),
            tile.x, tile.y, true,
            ((tile.width * tile.height - totalInPieceArea (inPieceCandidates correctedAreas tile))
              / (tile.width * tile.height)) * 100⟩]
        else [])) := by
  constructor
  · intro h
    unfold processTile
    dsimp only
    rw [if_pos h]
  · intro h
    unfold processTile
    dsimp only
    rw [if_neg h]
    by_cases hoff : tile.width * tile.height -
        totalInPieceArea (inPieceCandidates correctedAreas tile) > AREA_EPS
    · rw [if_pos hoff, if_pos hoff]
      have hin : totalInPieceArea (inPieceCandidates correctedAreas tile) ≥ AREA_EPS :=
        not_lt.mp h
      have heps : (0 : ℚ) < AREA_EPS := by norm_num [AREA_EPS]
      have hnom : tile.width * tile.height > 0 := by linarith
      rw [if_pos hnom]
    · rw [if_neg hoff, if_neg hoff]

/-- Witness for C1: a tile fully outside the unit-1000 square area collapses
to the single 100%-waste offcut, and the Scenario-3 tile (800,800 size 500)
yields one in-piece and one offcut of `wastePercentage = 84`. -/
theorem processTile_classification_witness :
    processTile
        [⟨1, "Area 1", [⟨1, 0, 0⟩, ⟨2, 1000, 0⟩, ⟨3, 1000, 1000⟩, ⟨4, 0, 1000⟩], [],
          "#06b6d4", true, none, true⟩]
        ⟨1, 2000, 2000, 5, 5, "#ef4444", some "0-1"⟩ =
      [⟨"1-offcut", ⟨1, 2000, 2000, 5, 5, "#ef4444", some "0-1"⟩,
        [localTileRect ⟨1, 2000, 2000, 5, 5, "#ef4444", some "0-1"⟩], some [],
        2000, 2000, true, 100⟩] ∧
    (processTile
        [⟨1, "Area 1", [⟨1, 0, 0⟩, ⟨2, 1000, 0⟩, ⟨3, 1000, 1000⟩, ⟨4, 0, 1000⟩], [],
          "#06b6d4", true, none, true⟩]
        ⟨2, 800, 800, 500, 500, "#ef4444", some "0-1"⟩).map
      (fun p => (p.isOffcut, p.wastePercentage)) = [(false, 0), (true, 84)] := by
  have hedges : polygonEdges [⟨1, 0, 0⟩, ⟨2, 1000, 0⟩, ⟨3, 1000, 1000⟩, ⟨4, 0, 1000⟩] =
      [((⟨1, 0, 0⟩ : Pt), (⟨2, 1000, 0⟩ : Pt)), (⟨2, 1000, 0⟩, ⟨3, 1000, 1000⟩),
        (⟨3, 1000, 1000⟩, ⟨4, 0, 1000⟩), (⟨4, 0, 1000⟩, ⟨1, 0, 0⟩)] := by
    norm_num [polygonEdges, List.range, List.range.loop, List.getD]
  have ha1 : shPass (⟨1, 0, 0⟩ : Pt) ⟨2, 1000, 0⟩
      [⟨-1, 2000, 2000⟩, ⟨-2, 2005, 2000⟩, ⟨-3, 2005, 2005⟩, ⟨-4, 2000, 2005⟩] =
      [⟨-1, 2000, 2000⟩, ⟨-2, 2005, 2000⟩, ⟨-3, 2005, 2005⟩, ⟨-4, 2000, 2005⟩] := by
    norm_num [shPass, shPassGo, getLineIntersection, crossProduct, EPSILON,
      List.getLast?_cons_cons, List.getLast?_singleton]
  have ha2 : shPass (⟨2, 1000, 0⟩ : Pt) ⟨3, 1000, 1000⟩
      [⟨-1, 2000, 2000⟩, ⟨-2, 2005, 2000⟩, ⟨-3, 2005, 2005⟩, ⟨-4, 2000, 2005⟩] = [] := by
    norm_num [shPass, shPassGo, getLineIntersection, crossProduct, EPSILON,
      List.getLast?_cons_cons, List.getLast?_singleton]
  have hclipa : clipPolygonByPolygon
      [⟨-1, 2000, 2000⟩, ⟨-2, 2005, 2000⟩, ⟨-3, 2005, 2005⟩, ⟨-4, 2000, 2005⟩]
      [⟨1, 0, 0⟩, ⟨2, 1000, 0⟩, ⟨3, 1000, 1000⟩, ⟨4, 0, 1000⟩] = [] := by
    unfold clipPolygonByPolygon
    rw [hedges]
    simp only [List.foldl_cons, List.foldl_nil, List.isEmpty_cons, Bool.false_eq_true,
      if_false, ha1, ha2, List.isEmpty_nil, if_true]
  have hcandsa : inPieceCandidates
      [⟨1, "Area 1", [⟨1, 0, 0⟩, ⟨2, 1000, 0⟩, ⟨3, 1000, 1000⟩, ⟨4, 0, 1000⟩], [],
        "#06b6d4", true, none, true⟩]
      ⟨1, 2000, 2000, 5, 5, "#ef4444", some "0-1"⟩ = [] := by
    unfold inPieceCandidates
    simp only [List.foldl_cons, List.foldl_nil]
    norm_num [tilePolygonOf, hclipa, polygonArea, AREA_EPS]
  have hb1 : shPass (⟨1, 0, 0⟩ : Pt) ⟨2, 1000, 0⟩
      [⟨-1, 800, 800⟩, ⟨-2, 1300, 800⟩, ⟨-3, 1300, 1300⟩, ⟨-4, 800, 1300⟩] =
      [⟨-1, 800, 800⟩, ⟨-2, 1300, 800⟩, ⟨-3, 1300, 1300⟩, ⟨-4, 800, 1300⟩] := by
    norm_num [shPass, shPassGo, getLineIntersection, crossProduct, EPSILON,
      List.getLast?_cons_cons, List.getLast?_singleton]
  have hb2 : shPass (⟨2, 1000, 0⟩ : Pt) ⟨3, 1000, 1000⟩
      [⟨-1, 800, 800⟩, ⟨-2, 1300, 800⟩, ⟨-3, 1300, 1300⟩, ⟨-4, 800, 1300⟩] =
      [⟨-1, 800, 800⟩, ⟨-1, 1000, 800⟩, ⟨-1, 1000, 1300⟩, ⟨-4, 800, 1300⟩] := by
    norm_num [shPass, shPassGo, getLineIntersection, crossProduct, EPSILON,
      List.getLast?_cons_cons, List.getLast?_singleton]
  have hb3 : shPass (⟨3, 1000, 1000⟩ : Pt) ⟨4, 0, 1000⟩
      [⟨-1, 800, 800⟩, ⟨-1, 1000, 800⟩, ⟨-1, 1000, 1300⟩, ⟨-4, 800, 1300⟩] =
      [⟨-1, 800, 1000⟩, ⟨-1, 800, 800⟩, ⟨-1, 1000, 800⟩, ⟨-1, 1000, 1000⟩] := by
    norm_num [shPass, shPassGo, getLineIntersection, crossProduct, EPSILON,
      List.getLast?_cons_cons, List.getLast?_singleton]
  have hb4 : shPass (⟨4, 0, 1000⟩ : Pt) ⟨1, 0, 0⟩
      [⟨-1, 800, 1000⟩, ⟨-1, 800, 800⟩, ⟨-1, 1000, 800⟩, ⟨-1, 1000, 1000⟩] =
      [⟨-1, 800, 1000⟩, ⟨-1, 800, 800⟩, ⟨-1, 1000, 800⟩, ⟨-1, 1000, 1000⟩] := by
    norm_num [shPass, shPassGo, getLineIntersection, crossProduct, EPSILON,
      List.getLast?_cons_cons, List.getLast?_singleton]
  have hclipb : clipPolygonByPolygon
      [⟨-1, 800, 800⟩, ⟨-2, 1300, 800⟩, ⟨-3, 1300, 1300⟩, ⟨-4, 800, 1300⟩]
      [⟨1, 0, 0⟩, ⟨2, 1000, 0⟩, ⟨3, 1000, 1000⟩, ⟨4, 0, 1000⟩] =
      [⟨-1, 800, 1000⟩, ⟨-1, 800, 800⟩, ⟨-1, 1000, 800⟩, ⟨-1, 1000, 1000⟩] := by
    unfold clipPolygonByPolygon
    rw [hedges]
    simp only [List.foldl_cons, List.foldl_nil, List.isEmpty_cons, Bool.false_eq_true,
      if_false, hb1, hb2, hb3, hb4]
  have hareab : polygonArea
      [⟨-1, 800, 1000⟩, ⟨-1, 800, 800⟩, ⟨-1, 1000, 800⟩, ⟨-1, 1000, 1000⟩] = 40000 := by
    norm_num [polygonArea, shoelaceSum, adjShoelace, List.getLast?_cons_cons,
      List.getLast?_singleton]
  have hcandsb : inPieceCandidates
      [⟨1, "Area 1", [⟨1, 0, 0⟩, ⟨2, 1000, 0⟩, ⟨3, 1000, 1000⟩, ⟨4, 0, 1000⟩], [],
        "#06b6d4", true, none, true⟩]
      ⟨2, 800, 800, 500, 500, "#ef4444", some "0-1"⟩ =
      [[⟨-1, 800, 1000⟩, ⟨-1, 800, 800⟩, ⟨-1, 1000, 800⟩, ⟨-1, 1000, 1000⟩]] := by
    unfold inPieceCandidates
    simp only [List.foldl_cons, List.foldl_nil]
    norm_num [tilePolygonOf, hclipb, hareab, AREA_EPS]
  have htotb : totalInPieceArea
      [[(⟨-1, 800, 1000⟩ : Pt), ⟨-1, 800, 800⟩, ⟨-1, 1000, 800⟩, ⟨-1, 1000, 1000⟩]] = 40000 := by
    norm_num [totalInPieceArea, hareab]
  constructor
  · have := (processTile_classification
      [⟨1, "Area 1", [⟨1, 0, 0⟩, ⟨2, 1000, 0⟩, ⟨3, 1000, 1000⟩, ⟨4, 0, 1000⟩], [],
        "#06b6d4", true, none, true⟩]
      ⟨1, 2000, 2000, 5, 5, "#ef4444", some "0-1"⟩).1
      (by rw [hcandsa]; norm_num [totalInPieceArea, AREA_EPS])
    rw [this]
    rfl
  · have := (processTile_classification
      [⟨1, "Area 1", [⟨1, 0, 0⟩, ⟨2, 1000, 0⟩, ⟨3, 1000, 1000⟩, ⟨4, 0, 1000⟩], [],
        "#06b6d4", true, none, true⟩]
      ⟨2, 800, 800, 500, 500, "#ef4444", some "0-1"⟩).2
      (by rw [hcandsb, htotb]; norm_num [AREA_EPS])
    rw [this, hcandsb, htotb]
    norm_num [List.enum, List.enumFrom, AREA_EPS]

theorem lookup_groupAdd {α : Type} (m : List (String × List α)) (c c' : String) (t : α) :
    (List.lookup c (groupAdd m c' t)).getD [] =
      if c = c' then (List.lookup c m).getD [] ++ [t] else (List.lookup c m).getD [] := by
  induction m with
  | nil =>
    by_cases h : c = c'
    · subst h; simp [groupAdd, List.lookup, beq_eq_decide]
    · simp [groupAdd, List.lookup, beq_eq_decide, h]
  | cons kv rest ih =>
    obtain ⟨k, l⟩ := kv
    unfold groupAdd
    by_cases hk : k = c'
    · rw [if_pos hk]
      by_cases hc : c = k
      · subst hc
        simp [List.lookup, beq_eq_decide, hk]
      · have hcc : ¬c = c' := hk ▸ hc
        simp [List.lookup, beq_eq_decide, hc, hcc]
    · rw [if_neg hk]
      by_cases hc : c = k
      · subst hc
        have hcc : ¬c = c' := hk
        simp [List.lookup, beq_eq_decide, hcc]
      · simp [List.lookup, beq_eq_decide, hc, ih]

theorem lookup_tilesByColor_foldl (ts : List Tile) (c : String) :
    ∀ m : List (String × List Tile),
      (List.lookup c (ts.foldl
        (fun m t => if t.number = none then m else groupAdd m t.color t) m)).getD [] =
      (List.lookup c m).getD [] ++
        ts.filter (fun t => decide (¬t.number = none ∧ t.color = c)) := by
  induction ts with
  | nil => intro m; simp
  | cons t ts ih =>
    intro m
    rw [List.foldl_cons]
    by_cases hn : t.number = none
    · rw [if_pos hn, ih]
      have : (decide (¬t.number = none ∧ t.color = c)) = false := by
        simp [hn]
      rw [List.filter_cons, this]
      simp
    · rw [if_neg hn, ih, lookup_groupAdd]
      by_cases hc : c = t.color
      · subst hc
        have : (decide (¬t.number = none ∧ t.color = t.color)) = true := by simp [hn]
        rw [List.filter_cons, this, if_pos rfl]
        simp
      · have : (decide (¬t.number = none ∧ t.color = c)) = false := by
          simp; intro _; exact fun h => hc (h.symm)
        rw [List.filter_cons, this, if_neg hc]
        simp

theorem lookup_tilesByColor (tiles : List Tile) (c : String) :
    (List.lookup c (tilesByColor tiles)).getD [] =
      tiles.filter (fun t => decide (¬t.number = none ∧ t.color = c)) := by
  unfold tilesByColor
  rw [lookup_tilesByColor_foldl]
  simp

theorem keys_groupAdd {α : Type} (m : List (String × List α)) (c : String) (t : α) :
    (groupAdd m c t).map Prod.fst = m.map Prod.fst ∨
    (groupAdd m c t).map Prod.fst = m.map Prod.fst ++ [c] := by
  induction m with
  | nil => right; simp [groupAdd]
  | cons kv rest ih =>
    obtain ⟨k, l⟩ := kv
    unfold groupAdd
    by_cases hk : k = c
    · left; simp [hk]
    · rw [if_neg hk]
      rcases ih with h | h
      · left; simpa using h
      · right; simpa using h

theorem mem_keys_groupAdd {α : Type} (m : List (String × List α)) (c c' : String) (t : α)
    (h : c ∈ (groupAdd m c' t).map Prod.fst) : c ∈ m.map Prod.fst ∨ c = c' := by
  induction m with
  | nil =>
    simp [groupAdd] at h
    right; exact h
  | cons kv rest ih =>
    obtain ⟨k, l⟩ := kv
    unfold groupAdd at h
    by_cases hk : k = c'
    · rw [if_pos hk] at h
      simp at h
      rcases h with h | h
      · left; simp [h]
      · left; simp [h]
    · rw [if_neg hk] at h
      simp at h
      rcases h with h | h
      · left; simp [h]
      · rcases ih (by simpa using h) with h' | h'
        · left; simp at h' ⊢; right; exact h'
        · right; exact h'

theorem nodup_keys_groupAdd {α : Type} (m : List (String × List α)) (c : String) (t : α)
    (h : (m.map Prod.fst).Nodup) : ((groupAdd m c t).map Prod.fst).Nodup := by
  induction m with
  | nil => simp [groupAdd]
  | cons kv rest ih =>
    obtain ⟨k, l⟩ := kv
    rw [List.map_cons, List.nodup_cons] at h
    unfold groupAdd
    by_cases hk : k = c
    · rw [if_pos hk]
      rw [List.map_cons, List.nodup_cons]
      exact ⟨h.1, h.2⟩
    · rw [if_neg hk]
      rw [List.map_cons, List.nodup_cons]
      refine ⟨?_, ih h.2⟩
      intro hmem
      rcases mem_keys_groupAdd rest k c t hmem with h' | h'
      · exact h.1 h'
      · exact hk h'

theorem nodup_keys_tilesByColor (tiles : List Tile) :
    ((tilesByColor tiles).map Prod.fst).Nodup := by
  unfold tilesByColor
  suffices H : ∀ m : List (String × List Tile), (m.map Prod.fst).Nodup →
      ((tiles.foldl (fun m t => if t.number = none then m else groupAdd m t.color t) m).map
        Prod.fst).Nodup by
    exact H [] (by simp)
  induction tiles with
  | nil => intro m hm; simpa using hm
  | cons t ts ih =>
    intro m hm
    rw [List.foldl_cons]
    by_cases hn : t.number = none
    · rw [if_pos hn]; exact ih m hm
    · rw [if_neg hn]; exact ih _ (nodup_keys_groupAdd m t.color t hm)

theorem lookup_eq_some_of_mem_of_nodup_keys {α : Type} (l : List (String × α)) (c : String)
    (g : α) (hn : (l.map Prod.fst).Nodup) (hmem : (c, g) ∈ l) :
    List.lookup c l = some g := by
  induction l with
  | nil => simp at hmem
  | cons kv rest ih =>
    obtain ⟨k, v⟩ := kv
    rw [List.map_cons, List.nodup_cons] at hn
    rcases List.mem_cons.mp hmem with h | h
    · injection h with h1 h2
      subst h1
      subst h2
      simp [List.lookup, beq_eq_decide]
    · have hk : k ≠ c := by
        intro hkc
        subst hkc
        exact hn.1 (by simpa using List.mem_map_of_mem Prod.fst h)
      simp [List.lookup, beq_eq_decide, Ne.symm hk]
      exact ih hn.2 h

theorem mem_of_lookup_eq_some {α : Type} (l : List (String × α)) (c : String) (g : α)
    (h : List.lookup c l = some g) : (c, g) ∈ l := by
  induction l with
  | nil => simp [List.lookup] at h
  | cons kv rest ih =>
    obtain ⟨k, v⟩ := kv
    by_cases hk : c = k
    · subst hk
      simp [List.lookup, beq_eq_decide] at h
      simp [h]
    · simp only [List.lookup, beq_eq_decide, hk, decide_False] at h
      exact List.mem_cons_of_mem _ (ih h)

theorem group_content_of_mem_tilesByColor (tiles : List Tile) (c : String) (g : List Tile)
    (hmem : (c, g) ∈ tilesByColor tiles) :
    g = tiles.filter (fun t => decide (¬t.number = none ∧ t.color = c)) := by
  have hl := lookup_eq_some_of_mem_of_nodup_keys _ _ _ (nodup_keys_tilesByColor tiles) hmem
  have := lookup_tilesByColor tiles c
  rw [hl] at this
  simpa using this

theorem allRenumbered_foldl (l : List (String × List Tile)) :
    ∀ a : List Tile,
      l.foldl (fun acc g => acc ++ renumberGroup g.1 g.2) a =
        a ++ l.flatMap (fun g => renumberGroup g.1 g.2) := by
  induction l with
  | nil => intro a; simp
  | cons g l ih =>
    intro a
    rw [List.foldl_cons, ih]
    simp

theorem allRenumberedTiles_eq (tiles : List Tile) :
    allRenumberedTiles tiles =
      (tilesByColor tiles).flatMap (fun g => renumberGroup g.1 g.2) := by
  unfold allRenumberedTiles
  rw [allRenumbered_foldl]
  simp

theorem mapGetTile_of_no_match (l : List Tile) (id : Int)
    (h : ∀ r ∈ l, r.id ≠ id) : mapGetTile l id = none := by
  unfold mapGetTile
  induction l with
  | nil => rfl
  | cons a l ih =>
    rw [List.foldl_cons]
    rw [if_neg (h a (by simp))]
    exact ih fun r hr => h r (by simp [hr])

theorem mapGetTile_foldl_some (l : List Tile) (id : Int) (r : Tile)
    (h : ∀ r' ∈ l, r'.id = id → r' = r) :
    l.foldl (fun acc x => if x.id = id then some x else acc) (some r) = some r := by
  induction l with
  | nil => rfl
  | cons a l ih =>
    rw [List.foldl_cons]
    by_cases ha : a.id = id
    · rw [if_pos ha, h a (by simp) ha]
      exact ih fun r' hr' => h r' (by simp [hr'])
    · rw [if_neg ha]
      exact ih fun r' hr' => h r' (by simp [hr'])

theorem mapGetTile_unique (l : List Tile) (id : Int) (r : Tile)
    (hr : r ∈ l) (hid : r.id = id) (huniq : ∀ r' ∈ l, r'.id = id → r' = r) :
    mapGetTile l id = some r := by
  unfold mapGetTile
  induction l with
  | nil => simp at hr
  | cons a l ih =>
    rw [List.foldl_cons]
    by_cases ha : a.id = id
    · rw [if_pos ha]
      rw [huniq a (by simp) ha]
      exact mapGetTile_foldl_some l id r fun r' hr' => huniq r' (by simp [hr'])
    · rw [if_neg ha]
      have hrl : r ∈ l := by
        rcases List.mem_cons.mp hr with h | h
        · subst h; exact absurd hid ha
        · exact h
      exact ih hrl fun r' hr' => huniq r' (by simp [hr'])

theorem mem_allRenumbered (tiles : List Tile) (r : Tile)
    (hr : r ∈ allRenumberedTiles tiles) :
    ∃ c g, (c, g) ∈ tilesByColor tiles ∧
      ∃ k, ∃ hk : k < (g.mergeSort tileLe).length,
        r = { (g.mergeSort tileLe).get ⟨k, hk⟩ with
              number := some (toString (colorIndexOf c) ++ "-" ++ toString (k + 1)) } := by
  rw [allRenumberedTiles_eq] at hr
  rcases List.mem_flatMap.mp hr with ⟨⟨c, g⟩, hg, hrg⟩
  refine ⟨c, g, hg, ?_⟩
  unfold renumberGroup at hrg
  dsimp only at hrg
  rcases List.mem_map.mp hrg with ⟨⟨k, u⟩, hku, hru⟩
  have hk := List.mem_enum_iff_getElem?.mp hku
  have hklen : k < (g.mergeSort tileLe).length := by
    by_contra hge
    rw [List.getElem?_eq_none (by omega)] at hk
    exact Option.noConfusion hk
  refine ⟨k, hklen, ?_⟩
  rw [List.getElem?_eq_getElem hklen] at hk
  injection hk with hk'
  rw [← hru]
  dsimp only
  rw [show (g.mergeSort tileLe).get ⟨k, hklen⟩ = u from hk']

theorem renumber_tile_value (tiles : List Tile) (hnodup : (tiles.map Tile.id).Nodup)
    (t : Tile) (ht : t ∈ tiles) :
    (t.number = none → mapGetTile (allRenumberedTiles tiles) t.id = none) ∧
    (¬t.number = none → ∀ k, (specColorGroup tiles t.color)[k]? = some t →
      mapGetTile (allRenumberedTiles tiles) t.id =
        some { t with number := some (toString (colorIndexOf t.color) ++ "-"
          ++ toString (k + 1)) }) := by
  have hinj := List.inj_on_of_nodup_map hnodup
  have hsource : ∀ r ∈ allRenumberedTiles tiles,
      ∃ u c, u ∈ tiles ∧ ¬u.number = none ∧ u.color = c ∧ r.id = u.id ∧
        ∃ k, ∃ hk : k < (specColorGroup tiles c).length,
          (specColorGroup tiles c).get ⟨k, hk⟩ = u ∧
          r = { u with number := some (toString (colorIndexOf c) ++ "-" ++ toString (k + 1)) } := by
    intro r hr
    rcases mem_allRenumbered tiles r hr with ⟨c, g, hg, k, hk, hrval⟩
    have hgc := group_content_of_mem_tilesByColor tiles c g hg
    set u := (g.mergeSort tileLe).get ⟨k, hk⟩ with hu
    have humem : u ∈ g.mergeSort tileLe := List.get_mem _ _ _
    have humem' : u ∈ g := (List.mergeSort_perm g tileLe).mem_iff.mp humem
    rw [hgc] at humem'
    have hfil := List.mem_filter.mp humem'
    have hprop := of_decide_eq_true hfil.2
    refine ⟨u, c, hfil.1, hprop.1, hprop.2, by rw [hrval], k, ?_⟩
    have hspec : specColorGroup tiles c = g.mergeSort tileLe := by
      unfold specColorGroup
      rw [← hgc]
    rw [hspec]
    exact ⟨hk, rfl, hrval⟩
  constructor
  · intro hnone
    apply mapGetTile_of_no_match
    intro r hr
    rcases hsource r hr with ⟨u, c, hu, hun, _, hid, _⟩
    rw [hid]
    intro heq
    exact hun (by rw [hinj hu ht heq]; exact hnone)
  · intro hnum k hkget
    have hk : k < (specColorGroup tiles t.color).length := by
      by_contra hge
      rw [List.getElem?_eq_none (by omega)] at hkget
      exact Option.noConfusion hkget
    have hget : (specColorGroup tiles t.color).get ⟨k, hk⟩ = t := by
      rw [List.getElem?_eq_getElem hk] at hkget
      injection hkget
    have htiles_nodup : tiles.Nodup := List.Nodup.of_map Tile.id hnodup
    have hgnodup : (specColorGroup tiles t.color).Nodup := by
      unfold specColorGroup
      exact (List.mergeSort_perm _ tileLe).symm.nodup (List.Nodup.filter _ htiles_nodup)
    apply mapGetTile_unique
    · have hgrp : (t.color, tiles.filter
          (fun u => decide (¬u.number = none ∧ u.color = t.color))) ∈ tilesByColor tiles := by
        have htf : t ∈ tiles.filter
            (fun u => decide (¬u.number = none ∧ u.color = t.color)) :=
          List.mem_filter.mpr ⟨ht, decide_eq_true ⟨hnum, rfl⟩⟩
        have hlk := lookup_tilesByColor tiles t.color
        cases hlook : List.lookup t.color (tilesByColor tiles) with
        | none =>
          rw [hlook] at hlk
          rw [Option.getD_none] at hlk
          rw [← hlk] at htf
          exact absurd htf (List.not_mem_nil t)
        | some g0 =>
          rw [hlook] at hlk
          rw [Option.getD_some] at hlk
          rw [hlk] at hlook
          exact mem_of_lookup_eq_some _ _ _ hlook
      rw [allRenumberedTiles_eq]
      apply List.mem_flatMap.mpr
      refine ⟨(t.color, tiles.filter
        (fun u => decide (¬u.number = none ∧ u.color = t.color))), hgrp, ?_⟩
      unfold renumberGroup
      apply List.mem_map.mpr
      refine ⟨(k, t), ?_, by dsimp only⟩
      apply List.mem_enum_iff_getElem?.mpr
      dsimp only
      have hspec : (tiles.filter
          (fun u => decide (¬u.number = none ∧ u.color = t.color))).mergeSort tileLe =
          specColorGroup tiles t.color := rfl
      rw [hspec, List.getElem?_eq_getElem hk]
      rw [show (specColorGroup tiles t.color)[k] = (specColorGroup tiles t.color).get ⟨k, hk⟩
        from rfl, hget]
    · rfl
    · intro r' hr' hrid
      rcases hsource r' hr' with ⟨u, c, hu, hun, hucol, hid, k', hk', hget', hrval'⟩
      have hut : u = t := hinj hu ht (by rw [← hid, hrid])
      subst hut
      subst hucol
      have : (⟨k', hk'⟩ : Fin (specColorGroup tiles u.color).length) = ⟨k, hk⟩ :=
        (List.Nodup.get_inj_iff hgnodup).mp (by rw [hget', hget])
      have hkk : k' = k := by
        injection this
      subst hkk
      rw [hrval']

/-- C3: `renumberTilesByColor` leaves tiles whose number is null unnumbered
and unchanged, and gives every numbered tile (under distinct tile ids) the
number `"<paletteIndexOfColor>-<ordinal>"` where the ordinal is its 1-based
position in its color group sorted by (y ascending, then x ascending); in
particular three same-color numbered tiles at (0,0), (500,0) and (0,500)
receive ordinals 1, 2 and 3 in that exact order. -/
theorem renumberTilesByColor_spec :
    ((renumberTilesByColor
        [⟨1, 500, 0, 465, 465, "#ef4444", some "x"⟩,
         ⟨2, 0, 500, 465, 465, "#ef4444", some "y"⟩,
         ⟨3, 0, 0, 465, 465, "#ef4444", some "z"⟩]).map Tile.number =
      [some "0-2", some "0-3", some "0-1"]) ∧
    (∀ tiles : List Tile, (tiles.map Tile.id).Nodup →
      ∀ t ∈ tiles, ∀ i : ℕ, tiles[i]? = some t →
        (t.number = none → (renumberTilesByColor tiles)[i]? = some t) ∧
        (¬t.number = none → ∀ k, (specColorGroup tiles t.color)[k]? = some t →
          (renumberTilesByColor tiles)[i]? =
            some { t with number := some (toString (colorIndexOf t.color) ++ "-"
              ++ toString (k + 1)) })) := by
  constructor
  · have hnodup : (([⟨1, 500, 0, 465, 465, "#ef4444", some "x"⟩,
        ⟨2, 0, 500, 465, 465, "#ef4444", some "y"⟩,
        ⟨3, 0, 0, 465, 465, "#ef4444", some "z"⟩] : List Tile).map Tile.id).Nodup := by
      simp
    have hfil : List.filter (fun u => decide (¬u.number = none ∧ u.color = "#ef4444"))
        [(⟨1, 500, 0, 465, 465, "#ef4444", some "x"⟩ : Tile),
         ⟨2, 0, 500, 465, 465, "#ef4444", some "y"⟩,
         ⟨3, 0, 0, 465, 465, "#ef4444", some "z"⟩] =
        [⟨1, 500, 0, 465, 465, "#ef4444", some "x"⟩,
         ⟨2, 0, 500, 465, 465, "#ef4444", some "y"⟩,
         ⟨3, 0, 0, 465, 465, "#ef4444", some "z"⟩] := by
      simp
    have hg : specColorGroup
        [⟨1, 500, 0, 465, 465, "#ef4444", some "x"⟩,
         ⟨2, 0, 500, 465, 465, "#ef4444", some "y"⟩,
         ⟨3, 0, 0, 465, 465, "#ef4444", some "z"⟩] "#ef4444" =
        [⟨3, 0, 0, 465, 465, "#ef4444", some "z"⟩,
         ⟨1, 500, 0, 465, 465, "#ef4444", some "x"⟩,
         ⟨2, 0, 500, 465, 465, "#ef4444", some "y"⟩] := by
      unfold specColorGroup
      rw [hfil]
      norm_num [List.mergeSort, tileLe]
    have hv1 := (renumber_tile_value _ hnodup
        (⟨1, 500, 0, 465, 465, "#ef4444", some "x"⟩ : Tile) (by simp)).2
      (by simp) 1 (by rw [show specColorGroup
        [(⟨1, 500, 0, 465, 465, "#ef4444", some "x"⟩ : Tile),
         ⟨2, 0, 500, 465, 465, "#ef4444", some "y"⟩,
         ⟨3, 0, 0, 465, 465, "#ef4444", some "z"⟩]
        (⟨1, 500, 0, 465, 465, "#ef4444", (some "x" : Option String)⟩ : Tile).color =
        [⟨3, 0, 0, 465, 465, "#ef4444", some "z"⟩,
         ⟨1, 500, 0, 465, 465, "#ef4444", some "x"⟩,
         ⟨2, 0, 500, 465, 465, "#ef4444", some "y"⟩] from hg]; rfl)
    have hv2 := (renumber_tile_value _ hnodup
        (⟨2, 0, 500, 465, 465, "#ef4444", some "y"⟩ : Tile) (by simp)).2
      (by simp) 2 (by rw [show specColorGroup
        [(⟨1, 500, 0, 465, 465, "#ef4444", some "x"⟩ : Tile),
         ⟨2, 0, 500, 465, 465, "#ef4444", some "y"⟩,
         ⟨3, 0, 0, 465, 465, "#ef4444", some "z"⟩]
        (⟨2, 0, 500, 465, 465, "#ef4444", (some "y" : Option String)⟩ : Tile).color =
        [⟨3, 0, 0, 465, 465, "#ef4444", some "z"⟩,
         ⟨1, 500, 0, 465, 465, "#ef4444", some "x"⟩,
         ⟨2, 0, 500, 465, 465, "#ef4444", some "y"⟩] from hg]; rfl)
    have hv3 := (renumber_tile_value _ hnodup
        (⟨3, 0, 0, 465, 465, "#ef4444", some "z"⟩ : Tile) (by simp)).2
      (by simp) 0 (by rw [show specColorGroup
        [(⟨1, 500, 0, 465, 465, "#ef4444", some "x"⟩ : Tile),
         ⟨2, 0, 500, 465, 465, "#ef4444", some "y"⟩,
         ⟨3, 0, 0, 465, 465, "#ef4444", some "z"⟩]
        (⟨3, 0, 0, 465, 465, "#ef4444", (some "z" : Option String)⟩ : Tile).color =
        [⟨3, 0, 0, 465, 465, "#ef4444", some "z"⟩,
         ⟨1, 500, 0, 465, 465, "#ef4444", some "x"⟩,
         ⟨2, 0, 500, 465, 465, "#ef4444", some "y"⟩] from hg]; rfl)
    unfold renumberTilesByColor
    simp only [List.map_cons, List.map_nil]
    rw [hv1, hv2, hv3]
    rfl
  · intro tiles hnodup t ht i hit
    have hval := renumber_tile_value tiles hnodup t ht
    constructor
    · intro hnone
      unfold renumberTilesByColor
      rw [List.getElem?_map, hit]
      simp only [Option.map_some']
      rw [hval.1 hnone]
      rfl
    · intro hnum k hkget
      unfold renumberTilesByColor
      rw [List.getElem?_map, hit]
      simp only [Option.map_some']
      rw [hval.2 hnum k hkget]
      rfl

/-- Witness for C3: a null-numbered singleton stays unchanged, and a numbered
cyan singleton becomes `"5-1"` (palette index 5, ordinal 1). -/
theorem renumberTilesByColor_spec_witness :
    (renumberTilesByColor [⟨5, 0, 0, 465, 465, "#ef4444", none⟩])[0]? =
      some ⟨5, 0, 0, 465, 465, "#ef4444", none⟩ ∧
    (renumberTilesByColor [⟨5, 1, 2, 465, 465, "#06b6d4", some "w"⟩])[0]? =
      some ⟨5, 1, 2, 465, 465, "#06b6d4", some "5-1"⟩ := by
  constructor
  · exact (renumberTilesByColor_spec.2 [⟨5, 0, 0, 465, 465, "#ef4444", none⟩]
      (by simp) _ (by simp) 0 rfl).1 rfl
  · have hg : specColorGroup [⟨5, 1, 2, 465, 465, "#06b6d4", some "w"⟩]
        (⟨5, 1, 2, 465, 465, "#06b6d4", (some "w" : Option String)⟩ : Tile).color =
        [⟨5, 1, 2, 465, 465, "#06b6d4", some "w"⟩] := by
      unfold specColorGroup
      rw [show List.filter (fun u => decide (¬u.number = none ∧ u.color = "#06b6d4"))
        [(⟨5, 1, 2, 465, 465, "#06b6d4", some "w"⟩ : Tile)] =
        [⟨5, 1, 2, 465, 465, "#06b6d4", some "w"⟩] from by simp]
      norm_num [List.mergeSort]
    have := (renumberTilesByColor_spec.2 [⟨5, 1, 2, 465, 465, "#06b6d4", some "w"⟩]
      (by simp) ⟨5, 1, 2, 465, 465, "#06b6d4", some "w"⟩ (by simp) 0 rfl).2
      (by simp) 0 (by rw [hg]; rfl)
    rw [this]
    rfl

theorem placeRow_getElem (pad y : ℚ) :
    ∀ (l : List CutTilePiece) (x0 : ℚ) (j : ℕ) (hj : j < l.length),
      (placeRow pad y x0 l)[j]? =
        some { l.get ⟨j, hj⟩ with
               x := x0 + ((l.take j).map (fun p => p.originalTile.width + pad)).sum,
               y := y } := by
  intro l
  induction l with
  | nil => intro x0 j hj; simp at hj
  | cons p ps ih =>
    intro x0 j hj
    cases j with
    | zero => simp [placeRow]
    | succ j =>
      have hj' : j < ps.length := by simpa using hj
      unfold placeRow
      rw [List.getElem?_cons_succ, ih (x0 + p.originalTile.width + pad) j hj']
      simp only [List.take_succ_cons, List.map_cons, List.sum_cons, List.get_cons_succ]
      congr 2
      ring

theorem packGroups_map_fst (minX pad : ℚ) :
    ∀ (gl : List (String × List CutTilePiece)) (y0 : ℚ),
      (packGroups minX pad y0 gl).map Prod.fst = gl.map Prod.fst := by
  intro gl
  induction gl with
  | nil => intro y0; rfl
  | cons g gl ih =>
    intro y0
    obtain ⟨c, ps⟩ := g
    unfold packGroups
    rw [List.map_cons, ih]
    rfl

theorem packGroups_getElem (minX pad : ℚ) :
    ∀ (gl : List (String × List CutTilePiece)) (y0 : ℚ) (k : ℕ) (hk : k < gl.length),
      (packGroups minX pad y0 gl)[k]? =
        some ((gl.get ⟨k, hk⟩).1,
          placeRow pad
            (y0 + ((gl.take k).map (fun g => maxHeightInRow g.2 + pad * 2)).sum)
            minX ((gl.get ⟨k, hk⟩).2.mergeSort pieceLe)) := by
  intro gl
  induction gl with
  | nil => intro y0 k hk; simp at hk
  | cons g gl ih =>
    intro y0 k hk
    obtain ⟨c, ps⟩ := g
    cases k with
    | zero => simp [packGroups]
    | succ k =>
      have hk' : k < gl.length := by simpa using hk
      unfold packGroups
      rw [List.getElem?_cons_succ, ih (y0 + maxHeightInRow ps + pad * 2) k hk']
      congr 3
      rw [List.take_succ_cons, List.map_cons, List.sum_cons]
      ring

theorem pieceLe_trans (a b c : CutTilePiece)
    (hab : pieceLe a b = true) (hbc : pieceLe b c = true) : pieceLe a c = true := by
  unfold pieceLe at *
  rw [decide_eq_true_eq] at *
  omega

theorem pieceLe_total (a b : CutTilePiece) : (pieceLe a b || pieceLe b a) = true := by
  unfold pieceLe
  rcases Nat.le_total (ordinalOf a.originalTile) (ordinalOf b.originalTile) with h | h
  · rw [decide_eq_true h]; rfl
  · rw [decide_eq_true h]; simp

theorem colorLe_trans (a b c : String)
    (hab : colorLe a b = true) (hbc : colorLe b c = true) : colorLe a c = true := by
  unfold colorLe at *
  rw [decide_eq_true_eq] at *
  omega

theorem colorLe_total (a b : String) : (colorLe a b || colorLe b a) = true := by
  unfold colorLe
  rcases le_total (colorIndexOf a) (colorIndexOf b) with h | h
  · rw [decide_eq_true h]; rfl
  · rw [decide_eq_true h]; simp

/-- C8 (amended): the deterministic offcut packing lays out the offcut color
groups in fixed palette order, pieces within a color sorted by their tile's
assigned ordinal ascending, each group one row; the first row starts below the
bounding box of all areas and tiles by THREE times the padding of half a
nominal tile width (not one padding), pieces are placed left to right
separated by one padding, and each subsequent row is offset downward by the
tallest original tile height in the previous group plus twice the padding. -/
theorem packOffcuts_layout (areas : List Area) (tiles : List Tile)
    (dims : TileDimensions) (pieces : List CutTilePiece) :
    List.Pairwise (fun a b => colorIndexOf a ≤ colorIndexOf b)
      ((packOffcuts areas tiles dims pieces).map Prod.fst) ∧
    ((packOffcuts areas tiles dims pieces).map Prod.fst).Perm
      ((offcutPiecesByColor pieces).map Prod.fst) ∧
    (∀ k, ∀ hk : k < (orderedOffcutGroups pieces).length,
      (packOffcuts areas tiles dims pieces)[k]? =
        some (((orderedOffcutGroups pieces).get ⟨k, hk⟩).1,
          placeRow (dims.width / 2)
            (maxYOf (layoutPoints areas tiles) + dims.width / 2 * 3 +
              (((orderedOffcutGroups pieces).take k).map
                (fun g => maxHeightInRow g.2 + dims.width / 2 * 2)).sum)
            (minXOf (layoutPoints areas tiles))
            (((orderedOffcutGroups pieces).get ⟨k, hk⟩).2.mergeSort pieceLe)) ∧
      List.Pairwise (fun a b => ordinalOf a.originalTile ≤ ordinalOf b.originalTile)
        (((orderedOffcutGroups pieces).get ⟨k, hk⟩).2.mergeSort pieceLe) ∧
      (((orderedOffcutGroups pieces).get ⟨k, hk⟩).2.mergeSort pieceLe).Perm
        ((orderedOffcutGroups pieces).get ⟨k, hk⟩).2) ∧
    (∀ (pad y x0 : ℚ) (l : List CutTilePiece) (j : ℕ) (hj : j < l.length),
      (placeRow pad y x0 l)[j]? =
        some { l.get ⟨j, hj⟩ with
               x := x0 + ((l.take j).map (fun p => p.originalTile.width + pad)).sum,
               y := y }) := by
  have hfst : (packOffcuts areas tiles dims pieces).map Prod.fst =
      sortedColors (offcutPiecesByColor pieces) := by
    unfold packOffcuts
    rw [packGroups_map_fst]
    unfold orderedOffcutGroups
    rw [List.map_map]
    have hcomp : (Prod.fst ∘ fun c =>
        (c, (List.lookup c (offcutPiecesByColor pieces)).getD [])) = id := rfl
    rw [hcomp, List.map_id]
  refine ⟨?_, ?_, ?_, ?_⟩
  · rw [hfst]
    unfold sortedColors
    have hs := List.sorted_mergeSort colorLe_trans colorLe_total
      ((offcutPiecesByColor pieces).map Prod.fst)
    exact hs.imp fun h => by
      unfold colorLe at h
      exact of_decide_eq_true h
  · rw [hfst]
    unfold sortedColors
    exact List.mergeSort_perm _ _
  · intro k hk
    refine ⟨?_, ?_, ?_⟩
    · unfold packOffcuts
      rw [packGroups_getElem]
    · have hs := List.sorted_mergeSort pieceLe_trans pieceLe_total
        ((orderedOffcutGroups pieces).get ⟨k, hk⟩).2
      exact hs.imp fun h => by
        unfold pieceLe at h
        exact of_decide_eq_true h
    · exact List.mergeSort_perm _ _
  · exact fun pad y x0 l j hj => placeRow_getElem pad y l x0 j hj

/-- Witness for the amended C8: one red and one cyan offcut; the red row is
placed at `y = 250 = maxY + 3 * padding` and the cyan row `100 + 2 * padding`
lower. -/
theorem packOffcuts_layout_witness :
    (packOffcuts [] [⟨1, 0, 0, 100, 100, "#ef4444", some "0-1"⟩] ⟨100, 100⟩
      [⟨"1-offcut", ⟨1, 0, 0, 100, 100, "#ef4444", some "0-1"⟩,
        [[⟨-1, 0, 0⟩, ⟨-1, 100, 0⟩, ⟨-1, 100, 100⟩, ⟨-1, 0, 100⟩]],
        some [], 0, 0, true, 100⟩])[0]? =
      some ("#ef4444",
        placeRow 50
          (maxYOf (layoutPoints [] [⟨1, 0, 0, 100, 100, "#ef4444", some "0-1"⟩]) + 50 * 3 + 0)
          (minXOf (layoutPoints [] [⟨1, 0, 0, 100, 100, "#ef4444", some "0-1"⟩]))
          ([(⟨"1-offcut", ⟨1, 0, 0, 100, 100, "#ef4444", some "0-1"⟩,
            [[⟨-1, 0, 0⟩, ⟨-1, 100, 0⟩, ⟨-1, 100, 100⟩, ⟨-1, 0, 100⟩]],
            some [], 0, 0, true, 100⟩ : CutTilePiece)].mergeSort pieceLe)) := by
  have h := ((packOffcuts_layout [] [⟨1, 0, 0, 100, 100, "#ef4444", some "0-1"⟩] ⟨100, 100⟩
    [⟨"1-offcut", ⟨1, 0, 0, 100, 100, "#ef4444", some "0-1"⟩,
      [[⟨-1, 0, 0⟩, ⟨-1, 100, 0⟩, ⟨-1, 100, 100⟩, ⟨-1, 0, 100⟩]],
      some [], 0, 0, true, 100⟩]).2.2.1 0 (by
        norm_num [orderedOffcutGroups, offcutPiecesByColor, groupAdd, sortedColors,
          List.mergeSort, List.filter_cons])).1
  rw [h]
  norm_num [orderedOffcutGroups, offcutPiecesByColor, groupAdd, sortedColors, colorLe,
    List.mergeSort, List.filter_cons, List.lookup, beq_eq_decide]

/-- Counterexample to C8 as stated: with one 100×100 tile at the origin and
nominal tile width 100 (padding 50), the single offcut row is placed at
`y = 250 = maxY + 3 * padding`, not at `maxY + padding = 150` as the claim's
first-row rule demands. -/
theorem packOffcuts_first_row_counterexample :
    (packOffcuts [] [⟨1, 0, 0, 100, 100, "#ef4444", some "0-1"⟩] ⟨100, 100⟩
      [⟨"1-offcut", ⟨1, 0, 0, 100, 100, "#ef4444", some "0-1"⟩,
        [[⟨-1, 0, 0⟩, ⟨-1, 100, 0⟩, ⟨-1, 100, 100⟩, ⟨-1, 0, 100⟩]],
        some [], 0, 0, true, 100⟩]).map (fun g => g.2.map fun p => p.y) = [[250]] ∧
    maxYOf (layoutPoints [] [⟨1, 0, 0, 100, 100, "#ef4444", some "0-1"⟩]) +
      (100 : ℚ) / 2 = 150 ∧
    ¬(250 : ℚ) = 150 := by
  refine ⟨?_, ?_, by norm_num⟩
  · norm_num [packOffcuts, offcutPiecesByColor, groupAdd, layoutPoints, minXOf, maxYOf,
      sortedColors, colorLe, List.mergeSort, packGroups, maxHeightInRow, pieceLe, placeRow,
      orderedOffcutGroups, List.lookup, List.filter_cons, beq_eq_decide, ordinalOf,
      colorIndexOf, TILE_COLORS]
  · norm_num [layoutPoints, maxYOf]

theorem wrapUp_eq_self (θ : ℝ) (h : ¬θ ≤ -Real.pi) : wrapUp θ = θ := by
  rw [wrapUp]
  exact dif_neg h

theorem wrapDown_eq_self (θ : ℝ) (h : ¬Real.pi < θ) : wrapDown θ = θ := by
  rw [wrapDown]
  exact dif_neg h

theorem wrapUp_gt (θ : ℝ) : -Real.pi < wrapUp θ := by
  induction θ using wrapUp.induct with
  | case1 x h ih => rw [wrapUp, dif_pos h]; exact ih
  | case2 x h => rw [wrapUp, dif_neg h]; exact not_le.mp h

theorem wrapUp_mod (θ : ℝ) : ∃ k : ℤ, wrapUp θ = θ + 2 * Real.pi * k := by
  induction θ using wrapUp.induct with
  | case1 x h ih =>
    obtain ⟨k, hk⟩ := ih
    refine ⟨k + 1, ?_⟩
    rw [wrapUp, dif_pos h, hk]
    push_cast
    ring
  | case2 x h =>
    refine ⟨0, ?_⟩
    rw [wrapUp, dif_neg h]
    push_cast
    ring

theorem wrapDown_le (θ : ℝ) : wrapDown θ ≤ Real.pi := by
  induction θ using wrapDown.induct with
  | case1 x h ih => rw [wrapDown, dif_pos h]; exact ih
  | case2 x h => rw [wrapDown, dif_neg h]; exact not_lt.mp h

theorem wrapDown_gt (θ : ℝ) : -Real.pi < θ → -Real.pi < wrapDown θ := by
  induction θ using wrapDown.induct with
  | case1 x h ih =>
    intro hx
    rw [wrapDown, dif_pos h]
    have := Real.pi_pos
    exact ih (by linarith)
  | case2 x h =>
    intro hx
    rw [wrapDown, dif_neg h]
    exact hx

theorem wrapDown_mod (θ : ℝ) : ∃ k : ℤ, wrapDown θ = θ + 2 * Real.pi * k := by
  induction θ using wrapDown.induct with
  | case1 x h ih =>
    obtain ⟨k, hk⟩ := ih
    refine ⟨k - 1, ?_⟩
    rw [wrapDown, dif_pos h, hk]
    push_cast
    ring
  | case2 x h =>
    refine ⟨0, ?_⟩
    rw [wrapDown, dif_neg h]
    push_cast
    ring

theorem scenario_polar_dist : polarFinalDist ⟨2, 0, 0⟩ (some 100)
    ⟨240 * Real.cos (10 * Real.pi / 180), 240 * Real.sin (10 * Real.pi / 180)⟩ = 200 := by
  unfold polarFinalDist
  dsimp only
  have hsum : (240 * Real.cos (10 * Real.pi / 180) - 0) *
      (240 * Real.cos (10 * Real.pi / 180) - 0) +
      (240 * Real.sin (10 * Real.pi / 180) - 0) * (240 * Real.sin (10 * Real.pi / 180) - 0) =
      57600 * (Real.sin (10 * Real.pi / 180) ^ 2 + Real.cos (10 * Real.pi / 180) ^ 2) := by
    ring
  rw [hsum, Real.sin_sq_add_cos_sq]
  rw [show (57600 : ℝ) * 1 = 240 ^ 2 by norm_num]
  rw [Real.sqrt_sq (by norm_num : (0 : ℝ) ≤ 240)]
  rw [if_pos (by norm_num : (100 : ℝ) > 0)]
  rw [show jsRound ((240 : ℝ) / 100) = 2 from by
    unfold jsRound
    apply Int.floor_eq_iff.mpr
    constructor <;> push_cast <;> norm_num]
  push_cast
  norm_num

theorem scenario_polar_angle : polarFinalAngle [⟨1, -100, 0⟩, ⟨2, 0, 0⟩] ⟨2, 0, 0⟩ (some 15)
    ⟨240 * Real.cos (10 * Real.pi / 180), 240 * Real.sin (10 * Real.pi / 180)⟩ =
    15 * Real.pi / 180 := by
  have hπ := Real.pi_pos
  have hraw : atan2 (240 * Real.sin (10 * Real.pi / 180))
      (240 * Real.cos (10 * Real.pi / 180)) = 10 * Real.pi / 180 := by
    unfold atan2
    have hmk : (⟨240 * Real.cos (10 * Real.pi / 180),
        240 * Real.sin (10 * Real.pi / 180)⟩ : ℂ) =
        (240 : ℝ) * (Complex.cos ((10 * Real.pi / 180 : ℝ) : ℂ) +
          Complex.sin ((10 * Real.pi / 180 : ℝ) : ℂ) * Complex.I) := by
      rw [Complex.mk_eq_add_mul_I, ← Complex.ofReal_cos, ← Complex.ofReal_sin]
      push_cast
      ring
    rw [hmk]
    exact Complex.arg_mul_cos_add_sin_mul_I (by norm_num) ⟨by linarith, by linarith⟩
  have hbase : atan2 (0 : ℝ) (100 : ℝ) = 0 := by
    unfold atan2
    rw [show (⟨(100 : ℝ), (0 : ℝ)⟩ : ℂ) = ((100 : ℝ) : ℂ) from rfl]
    exact Complex.arg_ofReal_of_nonneg (by norm_num)
  unfold polarFinalAngle polarBaseAngle
  dsimp only
  norm_num [List.getD_cons_zero]
  rw [hraw, hbase]
  rw [show (10 * Real.pi / 180 - 0 : ℝ) = 10 * Real.pi / 180 by ring]
  rw [show wrapUp (10 * Real.pi / 180) = 10 * Real.pi / 180 from
    wrapUp_eq_self _ (by intro hle; nlinarith)]
  rw [show wrapDown (10 * Real.pi / 180) = 10 * Real.pi / 180 from
    wrapDown_eq_self _ (by intro hlt; nlinarith)]
  rw [show 10 * Real.pi / 180 / (15 * (Real.pi / 180)) = 2 / 3 from by
    rw [div_eq_iff (by positivity)]
    ring]
  rw [show jsRound ((2 : ℝ) / 3) = 1 from by
    unfold jsRound
    apply Int.floor_eq_iff.mpr
    constructor <;> push_cast <;> norm_num]
  push_cast
  ring

/-- C7: the polar resolver wraps the relative angle into `(-π, π]` shifting by
a whole multiple of 2π; a resulting snapped distance of exactly 0 returns the
last placed point classified as a vertex snap; and in the concrete scenario
(reference direction 0°, angle increment 15°, raw relative angle 10°, length
increment 100, raw distance 240) the result lies at angle 15° and distance
200 from the last point. -/
theorem polarSnap_spec :
    (∀ θ : ℝ, wrapDown (wrapUp θ) ∈ Set.Ioc (-Real.pi) Real.pi ∧
      ∃ k : ℤ, wrapDown (wrapUp θ) = θ + 2 * Real.pi * k) ∧
    (∀ (env : SnapEnv) (pos : V2) (a : RArea) (lastPoint : RPt),
      env.activeTool = Tool.WALL → env.activeArea = some a →
      a.points.getLast? = some lastPoint →
      (env.activeAngleSnap ≠ Option.none ∨ env.activeLengthSnap ≠ Option.none) →
      polarFinalDist lastPoint env.activeLengthSnap pos = 0 →
      getSnappedPos env pos = ⟨rptPos lastPoint, SnapType.vertex⟩) ∧
    (getSnappedPos
        ⟨Tool.WALL, some ⟨[⟨1, -100, 0⟩, ⟨2, 0, 0⟩], []⟩, some 15, some 100,
          ⟨false, false, false⟩, ⟨[], Option.none⟩, [], 465, 465, 1⟩
        ⟨240 * Real.cos (10 * Real.pi / 180), 240 * Real.sin (10 * Real.pi / 180)⟩ =
      ⟨⟨200 * Real.cos (15 * Real.pi / 180), 200 * Real.sin (15 * Real.pi / 180)⟩,
        SnapType.extension⟩) := by
  refine ⟨?_, ?_, ?_⟩
  · intro θ
    refine ⟨⟨wrapDown_gt _ (wrapUp_gt θ), wrapDown_le _⟩, ?_⟩
    obtain ⟨k1, hk1⟩ := wrapUp_mod θ
    obtain ⟨k2, hk2⟩ := wrapDown_mod (wrapUp θ)
    refine ⟨k1 + k2, ?_⟩
    rw [hk2, hk1]
    push_cast
    ring
  · intro env pos a lastPoint htool harea hlast hsnap hdist
    unfold getSnappedPos
    rw [harea]
    simp only [Option.map_some', Option.getD_some]
    rw [hlast]
    dsimp only
    rw [if_pos ⟨htool, hsnap⟩]
    unfold polarSnap
    dsimp only
    rw [hdist]
    rw [if_pos rfl]
  · unfold getSnappedPos
    simp only [Option.map_some', Option.getD_some]
    rw [show ([⟨1, -100, 0⟩, ⟨2, 0, 0⟩] : List RPt).getLast? = some ⟨2, 0, 0⟩ from rfl]
    dsimp only
    rw [if_pos (⟨trivial, Or.inl (by simp)⟩ : True ∧ ((some (15:ℝ) ≠ Option.none) ∨ (some (100:ℝ) ≠ Option.none)))]
    unfold polarSnap
    dsimp only
    rw [scenario_polar_dist, scenario_polar_angle]
    rw [if_neg (by norm_num : ¬(200 : ℝ) = 0)]
    show SnapResult.mk ⟨0 + 200 * Real.cos (15 * Real.pi / 180),
      0 + 200 * Real.sin (15 * Real.pi / 180)⟩ SnapType.extension = _
    norm_num

/-- Witness for C7: the wrap of angle 0 lands in `(-π, π]`, and a cursor
exactly on the last point (snapped distance 0) returns that point as a vertex
snap. -/
theorem polarSnap_spec_witness :
    wrapDown (wrapUp 0) ∈ Set.Ioc (-Real.pi) Real.pi ∧
    getSnappedPos
      ⟨Tool.WALL, some ⟨[⟨1, 5, 7⟩], []⟩, Option.none, some 100,
        ⟨false, false, false⟩, ⟨[], Option.none⟩, [], 465, 465, 1⟩
      ⟨5, 7⟩ = ⟨⟨5, 7⟩, SnapType.vertex⟩ := by
  constructor
  · exact (polarSnap_spec.1 0).1
  · have hd : polarFinalDist ⟨1, 5, 7⟩ (some 100) ⟨5, 7⟩ = 0 := by
      unfold polarFinalDist
      dsimp only
      rw [show ((5 : ℝ) - 5) * ((5 : ℝ) - 5) + ((7 : ℝ) - 7) * ((7 : ℝ) - 7) = 0 by norm_num]
      rw [Real.sqrt_zero]
      rw [if_pos (by norm_num : (100 : ℝ) > 0)]
      rw [show jsRound ((0 : ℝ) / 100) = 0 from by
        unfold jsRound
        apply Int.floor_eq_iff.mpr
        constructor <;> push_cast <;> norm_num]
      push_cast
      norm_num
    exact polarSnap_spec.2.1
      ⟨Tool.WALL, some ⟨[⟨1, 5, 7⟩], []⟩, Option.none, some 100,
        ⟨false, false, false⟩, ⟨[], Option.none⟩, [], 465, 465, 1⟩
      ⟨5, 7⟩ ⟨[⟨1, 5, 7⟩], []⟩ ⟨1, 5, 7⟩ rfl rfl rfl (Or.inr (by simp)) hd

theorem foldVertexSnaps_preserve (pos : V2) (snapRadius : ℝ) :
    ∀ (l : List RPt) (best : BestSnap),
      (∀ p ∈ l, ¬(rdist pos (rptPos p) < snapRadius ∧
        ((rdist pos (rptPos p) : ℝ) : EReal) < best.dist)) →
      foldVertexSnaps pos snapRadius best l = best := by
  intro l
  induction l with
  | nil => intro best h; rfl
  | cons p ps ih =>
    intro best h
    unfold foldVertexSnaps
    dsimp only
    rw [if_neg (h p (by simp))]
    exact ih best fun q hq => h q (by simp [hq])

theorem foldMidSnaps_preserve (pos : V2) (snapRadius : ℝ) :
    ∀ (l : List (RWall × List RPt)) (best : BestSnap),
      (∀ wp ∈ l, ∀ m, wallMid wp.2 wp.1 = some m →
        ¬(rdist pos m < snapRadius ∧ ((rdist pos m : ℝ) : EReal) < best.dist)) →
      foldMidSnaps pos snapRadius best l = best := by
  intro l
  induction l with
  | nil => intro best h; rfl
  | cons wp rest ih =>
    intro best h
    obtain ⟨w, pts⟩ := wp
    unfold foldMidSnaps
    dsimp only
    cases hm : wallMid pts w with
    | none => exact ih best fun wq hwq => h wq (by simp [hwq])
    | some m =>
      dsimp only
      rw [if_neg (h (w, pts) (by simp) m hm)]
      exact ih best fun wq hwq => h wq (by simp [hwq])

theorem foldVertexSnaps_char (pos : V2) (snapRadius : ℝ) :
    ∀ (l : List RPt) (best : BestSnap),
      foldVertexSnaps pos snapRadius best l = best ∨
      ∃ p ∈ l, rdist pos (rptPos p) < snapRadius ∧
        foldVertexSnaps pos snapRadius best l =
          ⟨rptPos p, ((rdist pos (rptPos p) : ℝ) : EReal), SnapType.vertex⟩ := by
  intro l
  induction l with
  | nil => intro best; left; rfl
  | cons p ps ih =>
    intro best
    unfold foldVertexSnaps
    dsimp only
    by_cases hc : rdist pos (rptPos p) < snapRadius ∧
        ((rdist pos (rptPos p) : ℝ) : EReal) < best.dist
    · rw [if_pos hc]
      rcases ih ⟨rptPos p, ((rdist pos (rptPos p) : ℝ) : EReal), SnapType.vertex⟩ with
        h | ⟨q, hq, hqd, hres⟩
      · right; exact ⟨p, by simp, hc.1, h⟩
      · right; exact ⟨q, by simp [hq], hqd, hres⟩
    · rw [if_neg hc]
      rcases ih best with h | ⟨q, hq, hqd, hres⟩
      · left; exact h
      · right; exact ⟨q, by simp [hq], hqd, hres⟩

theorem foldVertexSnaps_hit (pos : V2) (snapRadius : ℝ) :
    ∀ (l : List RPt) (best : BestSnap),
      (∃ p ∈ l, rdist pos (rptPos p) < snapRadius ∧
        ((rdist pos (rptPos p) : ℝ) : EReal) < best.dist) →
      ∃ p ∈ l, rdist pos (rptPos p) < snapRadius ∧
        foldVertexSnaps pos snapRadius best l =
          ⟨rptPos p, ((rdist pos (rptPos p) : ℝ) : EReal), SnapType.vertex⟩ := by
  intro l
  induction l with
  | nil =>
    rintro best ⟨p, hp, _⟩
    simp at hp
  | cons p ps ih =>
    intro best hex
    unfold foldVertexSnaps
    dsimp only
    by_cases hc : rdist pos (rptPos p) < snapRadius ∧
        ((rdist pos (rptPos p) : ℝ) : EReal) < best.dist
    · rw [if_pos hc]
      rcases foldVertexSnaps_char pos snapRadius ps
        ⟨rptPos p, ((rdist pos (rptPos p) : ℝ) : EReal), SnapType.vertex⟩ with
        h | ⟨q, hq, hqd, hres⟩
      · exact ⟨p, by simp, hc.1, h⟩
      · exact ⟨q, by simp [hq], hqd, hres⟩
    · rw [if_neg hc]
      obtain ⟨q, hq, hqr, hqd⟩ := hex
      rcases List.mem_cons.mp hq with hq' | hq'
      · subst hq'
        exact absurd ⟨hqr, hqd⟩ hc
      · obtain ⟨r, hr, hrr, hres⟩ := ih best ⟨q, hq', hqr, hqd⟩
        exact ⟨r, by simp [hr], hrr, hres⟩

theorem getSnappedPos_eq_ordinary (env : SnapEnv) (pos : V2)
    (hpolar : env.activeAngleSnap = Option.none ∧ env.activeLengthSnap = Option.none) :
    getSnappedPos env pos = ordinarySnap env pos := by
  unfold getSnappedPos
  dsimp only
  cases hl : ((Option.map RArea.points env.activeArea).getD []).getLast? with
  | none => rfl
  | some lp =>
    dsimp only
    rw [if_neg]
    rintro ⟨-, hor⟩
    rcases hor with h | h
    · exact h hpolar.1
    · exact h hpolar.2

/-- C2 (amended): in ordinary (non-polar) snap resolution, the tracking-guide
intersection within `SNAP_DISTANCE / zoom` is returned as type
`'intersection'` only when no vertex or midpoint candidate is STRICTLY closer
to the cursor (the scan replaces the running best only on strictly smaller
distance); at equal distance the intersection wins, and a vertex beats every
midpoint that is not strictly closer, so a vertex wins distance ties over
midpoints. -/
theorem getSnappedPos_ordinary_priority (env : SnapEnv) (pos : V2)
    (hpolar : env.activeAngleSnap = Option.none ∧ env.activeLengthSnap = Option.none) :
    (∀ q : V2, env.snapModes.otrack = true →
      env.trackingGuides.intersection = some q →
      rdist pos q < SNAP_DISTANCE / env.zoom →
      (∀ p ∈ allSnapPoints env.visibleAreas,
        ¬(rdist pos (rptPos p) < SNAP_DISTANCE / env.zoom ∧
          rdist pos (rptPos p) < rdist pos q)) →
      (∀ wp ∈ allSnapWalls env.visibleAreas, ∀ m, wallMid wp.2 wp.1 = some m →
        ¬(rdist pos m < SNAP_DISTANCE / env.zoom ∧ rdist pos m < rdist pos q)) →
      getSnappedPos env pos = ⟨q, SnapType.intersection⟩) ∧
    (env.trackingGuides.intersection = Option.none →
      env.snapModes.osnap = true →
      (∃ p ∈ allSnapPoints env.visibleAreas,
        rdist pos (rptPos p) < SNAP_DISTANCE / env.zoom) →
      (∀ wp ∈ allSnapWalls env.visibleAreas, ∀ m, wallMid wp.2 wp.1 = some m →
        ∀ p ∈ allSnapPoints env.visibleAreas,
          rdist pos (rptPos p) < SNAP_DISTANCE / env.zoom →
          rdist pos (rptPos p) ≤ rdist pos m) →
      (getSnappedPos env pos).type = SnapType.vertex) := by
  rw [getSnappedPos_eq_ordinary env pos hpolar]
  constructor
  · intro q hotrack hint hradius hverts hmids
    unfold ordinarySnap
    dsimp only
    rw [hint]
    dsimp only
    rw [if_pos (⟨hotrack, hradius⟩ :
      env.snapModes.otrack = true ∧ rdist pos q < SNAP_DISTANCE / env.zoom)]
    have hbest2 :
        (if env.snapModes.osnap = true then
          foldMidSnaps pos (SNAP_DISTANCE / env.zoom)
            (foldVertexSnaps pos (SNAP_DISTANCE / env.zoom)
              ⟨q, ((rdist pos q : ℝ) : EReal), SnapType.intersection⟩
              (allSnapPoints env.visibleAreas))
            (allSnapWalls env.visibleAreas)
        else ⟨q, ((rdist pos q : ℝ) : EReal), SnapType.intersection⟩) =
        (⟨q, ((rdist pos q : ℝ) : EReal), SnapType.intersection⟩ : BestSnap) := by
      by_cases hos : env.snapModes.osnap = true
      · rw [if_pos hos]
        rw [foldVertexSnaps_preserve pos _ _ _ fun p hp => ?_]
        · rw [foldMidSnaps_preserve pos _ _ _ fun wp hwp m hm => ?_]
          rintro ⟨h1, h2⟩
          exact hmids wp hwp m hm ⟨h1, EReal.coe_lt_coe_iff.mp h2⟩
        · rintro ⟨h1, h2⟩
          exact hverts p hp ⟨h1, EReal.coe_lt_coe_iff.mp h2⟩
      · rw [if_neg hos]
    rw [hbest2]
    rw [if_pos (by simp)]
  · intro hint hos hex hmid
    unfold ordinarySnap
    dsimp only
    rw [hint]
    dsimp only
    rw [if_pos hos]
    obtain ⟨v, hv, hvr⟩ := hex
    obtain ⟨w, hw, hwr, hres⟩ := foldVertexSnaps_hit pos (SNAP_DISTANCE / env.zoom)
      (allSnapPoints env.visibleAreas) ⟨pos, ⊤, SnapType.none⟩
      ⟨v, hv, hvr, EReal.coe_lt_top _⟩
    rw [hres]
    rw [foldMidSnaps_preserve pos _ _ _ fun wp hwp m hm => ?_]
    · rw [if_pos (by simp)]
    · rintro ⟨h1, h2⟩
      have hle := hmid wp hwp m hm w hw hwr
      exact absurd (EReal.coe_lt_coe_iff.mp h2) (not_lt.mpr hle)

/-- Witness for the amended C2: the intersection at distance 3 beats a vertex
at distance 4 (not strictly closer), and with no intersection a vertex at
distance 1 wins the exact tie against a wall midpoint at distance 1. -/
theorem getSnappedPos_ordinary_priority_witness :
    getSnappedPos
      ⟨Tool.POINTER, Option.none, Option.none, Option.none, ⟨false, true, true⟩,
        ⟨[], some ⟨3, 0⟩⟩, [⟨[⟨1, 4, 0⟩], []⟩], 465, 465, 1⟩ ⟨0, 0⟩ =
      ⟨⟨3, 0⟩, SnapType.intersection⟩ ∧
    (getSnappedPos
      ⟨Tool.POINTER, Option.none, Option.none, Option.none, ⟨false, true, false⟩,
        ⟨[], Option.none⟩, [⟨[⟨1, 1, 0⟩, ⟨2, 10, -1⟩, ⟨3, -10, -1⟩], [⟨7, 2, 3⟩]⟩],
        465, 465, 10⟩ ⟨0, 0⟩).type = SnapType.vertex := by
  have h3 : rdist ⟨0, 0⟩ ⟨3, 0⟩ = 3 := by
    unfold rdist
    rw [show ((3 : ℝ) - 0) ^ 2 + ((0 : ℝ) - 0) ^ 2 = 3 ^ 2 by norm_num]
    exact Real.sqrt_sq (by norm_num)
  have h4 : rdist ⟨0, 0⟩ ⟨4, 0⟩ = 4 := by
    unfold rdist
    rw [show ((4 : ℝ) - 0) ^ 2 + ((0 : ℝ) - 0) ^ 2 = 4 ^ 2 by norm_num]
    exact Real.sqrt_sq (by norm_num)
  have h1 : rdist ⟨0, 0⟩ ⟨1, 0⟩ = 1 := by
    unfold rdist
    rw [show ((1 : ℝ) - 0) ^ 2 + ((0 : ℝ) - 0) ^ 2 = 1 ^ 2 by norm_num]
    exact Real.sqrt_sq (by norm_num)
  have hm1 : rdist ⟨0, 0⟩ ⟨0, -1⟩ = 1 := by
    unfold rdist
    rw [show ((0 : ℝ) - 0) ^ 2 + ((-1 : ℝ) - 0) ^ 2 = 1 ^ 2 by norm_num]
    exact Real.sqrt_sq (by norm_num)
  have hfar : ∀ y : ℝ, ¬rdist ⟨0, 0⟩ ⟨y * 10, -1⟩ < 2 → True := fun _ _ => trivial
  constructor
  · apply (getSnappedPos_ordinary_priority _ ⟨0, 0⟩ ⟨rfl, rfl⟩).1 ⟨3, 0⟩ rfl rfl
    · rw [h3]
      norm_num [SNAP_DISTANCE]
    · intro p hp
      simp only [allSnapPoints, List.flatMap_cons, List.flatMap_nil] at hp
      simp at hp
      subst hp
      rw [show rptPos ⟨1, 4, 0⟩ = ⟨4, 0⟩ from rfl, h4, h3]
      rintro ⟨-, hlt⟩
      norm_num at hlt
    · intro wp hwp m hm
      simp [allSnapWalls] at hwp
  · apply (getSnappedPos_ordinary_priority _ ⟨0, 0⟩ ⟨rfl, rfl⟩).2 rfl rfl
    · refine ⟨⟨1, 1, 0⟩, by simp [allSnapPoints], ?_⟩
      rw [show rptPos ⟨1, 1, 0⟩ = ⟨1, 0⟩ from rfl, h1]
      norm_num [SNAP_DISTANCE]
    · intro wp hwp m hm p hp hpr
      simp only [allSnapWalls, List.flatMap_cons, List.flatMap_nil, List.map_cons,
        List.map_nil, List.append_nil, List.mem_singleton] at hwp
      subst hwp
      have hmval : m = ⟨0, -1⟩ := by
        rw [show wallMid [⟨1, 1, 0⟩, ⟨2, 10, -1⟩, ⟨3, -10, -1⟩] ⟨7, 2, 3⟩ =
          some ⟨0, -1⟩ from by
            unfold wallMid findPointById
            norm_num] at hm
        injection hm with hm'
        exact hm'.symm
      subst hmval
      rw [hm1]
      simp only [allSnapPoints, List.flatMap_cons, List.flatMap_nil] at hp
      simp at hp
      rcases hp with hp | hp | hp <;> subst hp
      · rw [show rptPos ⟨1, 1, 0⟩ = ⟨1, 0⟩ from rfl, h1]
      · exfalso
        rw [show rptPos ⟨2, 10, -1⟩ = ⟨10, -1⟩ from rfl] at hpr
        have : rdist ⟨0, 0⟩ ⟨10, -1⟩ < 2 := by
          have hz : SNAP_DISTANCE / (10 : ℝ) = 2 := by norm_num [SNAP_DISTANCE]
          rw [hz] at hpr
          exact hpr
        unfold rdist at this
        rw [show ((10 : ℝ) - 0) ^ 2 + ((-1 : ℝ) - 0) ^ 2 = 101 by norm_num] at this
        rw [show (2 : ℝ) = Real.sqrt 4 from by
          rw [show (4 : ℝ) = 2 ^ 2 by norm_num, Real.sqrt_sq (by norm_num)]] at this
        have := (Real.sqrt_lt_sqrt_iff (by norm_num)).mp this
        norm_num at this
      · exfalso
        rw [show rptPos ⟨3, -10, -1⟩ = ⟨-10, -1⟩ from rfl] at hpr
        have : rdist ⟨0, 0⟩ ⟨-10, -1⟩ < 2 := by
          have hz : SNAP_DISTANCE / (10 : ℝ) = 2 := by norm_num [SNAP_DISTANCE]
          rw [hz] at hpr
          exact hpr
        unfold rdist at this
        rw [show ((-10 : ℝ) - 0) ^ 2 + ((-1 : ℝ) - 0) ^ 2 = 101 by norm_num] at this
        rw [show (2 : ℝ) = Real.sqrt 4 from by
          rw [show (4 : ℝ) = 2 ^ 2 by norm_num, Real.sqrt_sq (by norm_num)]] at this
        have := (Real.sqrt_lt_sqrt_iff (by norm_num)).mp this
        norm_num at this

/-- Counterexample to C2 as stated: with the tracking intersection at distance
3 (well within the radius 20) but a vertex at distance 1, the resolver
returns the vertex, not the intersection — the intersection has no absolute
priority over strictly closer vertex candidates. -/
theorem getSnappedPos_intersection_counterexample :
    rdist ⟨0, 0⟩ ⟨3, 0⟩ < SNAP_DISTANCE / 1 ∧
    getSnappedPos
      ⟨Tool.POINTER, Option.none, Option.none, Option.none, ⟨false, true, true⟩,
        ⟨[], some ⟨3, 0⟩⟩, [⟨[⟨1, 1, 0⟩], []⟩], 465, 465, 1⟩ ⟨0, 0⟩ =
      ⟨⟨1, 0⟩, SnapType.vertex⟩ ∧
    SnapType.vertex ≠ SnapType.intersection := by
  have h3 : rdist ⟨0, 0⟩ ⟨3, 0⟩ = 3 := by
    unfold rdist
    rw [show ((3 : ℝ) - 0) ^ 2 + ((0 : ℝ) - 0) ^ 2 = 3 ^ 2 by norm_num]
    exact Real.sqrt_sq (by norm_num)
  have h1 : rdist ⟨0, 0⟩ ⟨1, 0⟩ = 1 := by
    unfold rdist
    rw [show ((1 : ℝ) - 0) ^ 2 + ((0 : ℝ) - 0) ^ 2 = 1 ^ 2 by norm_num]
    exact Real.sqrt_sq (by norm_num)
  refine ⟨by rw [h3]; norm_num [SNAP_DISTANCE], ?_, by simp⟩
  rw [getSnappedPos_eq_ordinary _ _ ⟨rfl, rfl⟩]
  unfold ordinarySnap
  dsimp only
  rw [show allSnapPoints [(⟨[⟨1, 1, 0⟩], []⟩ : RArea)] = [⟨1, 1, 0⟩] from rfl]
  rw [show allSnapWalls [(⟨[⟨1, 1, 0⟩], []⟩ : RArea)] = [] from rfl]
  unfold foldVertexSnaps foldMidSnaps
  dsimp only
  rw [show rptPos ⟨1, 1, 0⟩ = ⟨1, 0⟩ from rfl]
  simp only [h1, h3]
  rw [if_pos (⟨trivial, by norm_num [SNAP_DISTANCE]⟩ :
    True ∧ (3 : ℝ) < SNAP_DISTANCE / 1)]
  dsimp only
  rw [if_pos (⟨by norm_num [SNAP_DISTANCE], by
      exact_mod_cast (by norm_num : (1 : ℝ) < 3)⟩ :
    (1 : ℝ) < SNAP_DISTANCE / 1 ∧ ((1 : ℝ) : EReal) < ((3 : ℝ) : EReal))]
  rw [if_pos trivial]
  simp [foldVertexSnaps]

end SimpleJack
